import Mathlib

/-!
Verification of the real-time voice pipeline core
(frontend/src/composables/useWebSocketAudio.ts and the VAD composable).

Shallow embedding conventions:
* byte buffers (Uint8Array / ArrayBuffer) are `List Nat` with entries 0..255;
* Web-Audio clock times and float samples are exact rationals `ℚ`
  (the claims under study are order/equality facts preserved by this choice);
* the single-threaded JS event loop is a step function over explicit state,
  one step per executed callback; external outcomes (decode success/failure,
  playback failure classification) are oracle inputs to the steps;
* `setTimeout`-registered callbacks appear as explicit later events; the
  registered delays are recorded in ghost fields so "a follow-up run was
  scheduled" is visible in the state;
* callback invocations (onError / onComplete / onVoiceStart / onVoiceEnd)
  are counted in ghost counters.
-/

/-! ## Chunk deduplication (processPCMChunk, useWebSocketAudio.ts lines 105-127)

The source computes
`chunkFingerprint = byteLength + "_" + hex of first 16 bytes`.
The hex rendering (two fixed digits per byte) and the single separating
underscore make the string uniquely decodable back to the pair
(byte length, first 16 bytes), so the fingerprint is embedded as that pair.
`processedChunks` is a JS `Set` of fingerprints iterated in insertion order;
it is embedded as an insertion-ordered duplicate-free list. -/

def chunkFingerprint (c : List Nat) : Nat × List Nat :=
  (c.length, c.take 16)

/-- Cache bound from the source: `if (processedChunks.size > 100)`. -/
def dedupCacheSize : Nat := 100

/-- One run of the dedup block of `processPCMChunk` on one inbound chunk:
returns (forwarded to the streamer?, updated cache).  A chunk whose
fingerprint is cached is dropped (early `return`); otherwise its fingerprint
is inserted and, when the cache exceeds 100 entries, the oldest entry
(`processedChunks.values().next().value`, insertion order) is deleted. -/
def processPCMChunkDedup (cache : List (Nat × List Nat)) (c : List Nat) :
    Bool × List (Nat × List Nat) :=
  if chunkFingerprint c ∈ cache then
    (false, cache)
  else if dedupCacheSize < (cache ++ [chunkFingerprint c]).length then
    (true, (cache ++ [chunkFingerprint c]).tail)
  else
    (true, cache ++ [chunkFingerprint c])

/-- Processing a sequence of inbound chunks: list of forwarded flags and the
final cache. -/
def processPCMChunkDedupRun (cache : List (Nat × List Nat)) :
    List (List Nat) → List Bool × List (Nat × List Nat)
  | [] => ([], cache)
  | c :: cs =>
    let r := processPCMChunkDedup cache c
    let rest := processPCMChunkDedupRun r.2 cs
    (r.1 :: rest.1, rest.2)

/-! ## Voice activity detection (useVoiceActivityDetection, the VAD composable)

The VAD runs `analyzeVolume` on periodic analysis ticks.  The embedding
processes a list of volume samples `(t, vol)` at absolute times
`t : Nat` (milliseconds).  A pending `setTimeout` is a recorded absolute
deadline; the single-threaded event loop runs a due timer callback before
the next analysis tick, so the step for a sample at time `t` first fires any
timer whose deadline is ≤ t.  `onVoiceStart`/`onVoiceEnd` emissions are
counted in ghost counters. -/

structure VADConfig where
  volumeThreshold : ℚ
  silenceTimeout : Nat
  voiceTimeout : Nat

/-- Default config from the source (threshold 0.01, silence 1500ms, voice
200ms). -/
def vadDefaultConfig : VADConfig := ⟨1/100, 1500, 200⟩

structure VADState where
  isSpeaking : Bool
  voiceTimer : Option Nat
  silenceTimer : Option Nat
  voiceStarts : Nat
  voiceEnds : Nat
deriving DecidableEq

def vadInit : VADState := ⟨false, none, none, 0, 0⟩

/-- Callback of the `voiceTimeout` deadline set in `handleVoiceActivity`:
if still not speaking, transition to speaking and emit `onVoiceStart`. -/
def fireVoiceTimer (s : VADState) : VADState :=
  let s1 := if s.isSpeaking then s
            else { s with isSpeaking := true, voiceStarts := s.voiceStarts + 1 }
  { s1 with voiceTimer := none }

/-- Callback of the `silenceTimeout` deadline set in `handleSilence`:
if still speaking, transition to not speaking and emit `onVoiceEnd`. -/
def fireSilenceTimer (s : VADState) : VADState :=
  let s1 := if s.isSpeaking then
              { s with isSpeaking := false, voiceEnds := s.voiceEnds + 1 }
            else s
  { s1 with silenceTimer := none }

/-- Run the timer callbacks whose deadlines are due at time `t` (the event
loop delivers due `setTimeout` callbacks before the next analysis tick). -/
def fireDueTimers (t : Nat) (s : VADState) : VADState :=
  let s1 := match s.voiceTimer with
            | some d => if d ≤ t then fireVoiceTimer s else s
            | none => s
  match s1.silenceTimer with
  | some d => if d ≤ t then fireSilenceTimer s1 else s1
  | none => s1

/-- Model of `handleVoiceActivity` (volume above threshold): cancel a pending silence
deadline; if not speaking and no voice deadline pending, start one at
`t + voiceTimeout`. -/
def handleVoiceActivity (cfg : VADConfig) (t : Nat) (s : VADState) : VADState :=
  let s1 := { s with silenceTimer := none }
  if !s1.isSpeaking && s1.voiceTimer.isNone then
    { s1 with voiceTimer := some (t + cfg.voiceTimeout) }
  else s1

/-- Model of `handleSilence` (volume at or below threshold): cancel a pending voice
deadline; if speaking and no silence deadline pending, start one at
`t + silenceTimeout`. -/
def handleSilence (cfg : VADConfig) (t : Nat) (s : VADState) : VADState :=
  let s1 := { s with voiceTimer := none }
  if s1.isSpeaking && s1.silenceTimer.isNone then
    { s1 with silenceTimer := some (t + cfg.silenceTimeout) }
  else s1

/-- One analysis tick of `analyzeVolume` at time `t` with measured volume
`vol`: fire due timers, then branch on `averageVolume > volumeThreshold`. -/
def analyzeVolume (cfg : VADConfig) (t : Nat) (vol : ℚ) (s : VADState) : VADState :=
  let s1 := fireDueTimers t s
  if cfg.volumeThreshold < vol then handleVoiceActivity cfg t s1
  else handleSilence cfg t s1

def vadRun (cfg : VADConfig) (s : VADState) : List (Nat × ℚ) → VADState
  | [] => s
  | (t, v) :: rest => vadRun cfg (analyzeVolume cfg t v s) rest

/-! ## AudioStreamer (useWebSocketAudio.ts lines 1498-1715)

PCM16 decoding (`_processPCM16Chunk`): the JS code allocates
`new Float32Array(chunk.length / 2)` — for an odd byte length the
constructor truncates (`ToIndex`), so the array holds `⌊n/2⌋` samples — and
loops `i < chunk.length / 2`, i.e. `⌈n/2⌉` iterations; on an odd-length
chunk the final iteration's `DataView.getInt16` reads past the end, throws
`RangeError`, and the surrounding `try` reports it through `onError` and
continues.  The embedding consumes the byte list two bytes at a time
(little-endian signed 16-bit, normalized by 32768) and counts the `onError`
report for the trailing malformed sample.

Scheduling: `scheduleNextBuffer` re-reads `context.currentTime` on every
loop iteration, so the loop takes an arbitrary clock-reading function
`clock : Nat → ℚ` indexed by iteration.  Buffer sources are identified by
consecutive ids (ghost `nextSourceId`); `endOfQueueSource` models
`endOfQueueAudioSource` (re-pointing it detaches the previous source's
`onended` handler, which the `=== source` guard makes equivalent to the
model's id guard).  `onComplete` calls are counted in `completions`,
`onended` deliveries in `endedCount`. -/

/-- Model of `dataView.getInt16(2*i, true) / 32768`: little-endian signed 16-bit
sample normalized to a float. -/
def toFloatSample (lo hi : Nat) : ℚ :=
  (if lo + 256 * hi < 32768 then ((lo + 256 * hi : Nat) : ℤ)
   else ((lo + 256 * hi : Nat) : ℤ) - 65536) / 32768

/-- Model of `_processPCM16Chunk`: decode a byte list to (float samples, number of
`onError` reports).  An odd-length chunk produces one report for its
trailing malformed half-sample and still yields all well-formed samples. -/
def processPCM16Chunk : List Nat → List ℚ × Nat
  | [] => ([], 0)
  | [_] => ([], 1)
  | lo :: hi :: rest =>
    let r := processPCM16Chunk rest
    (toFloatSample lo hi :: r.1, r.2)

/-- Model of `this.bufferSize = 7680`. -/
def streamerBufferSize : Nat := 7680

/-- The slicing loop of `addPCM16`: split the processing buffer into
full-size blocks and push a shorter final block if a nonempty remainder is
left. -/
def sliceBlocks (buf : List ℚ) : List (List ℚ) :=
  if h : streamerBufferSize ≤ buf.length then
    buf.take streamerBufferSize :: sliceBlocks (buf.drop streamerBufferSize)
  else if buf.isEmpty then [] else [buf]
termination_by buf.length
decreasing_by
  simp only [List.length_drop]
  have : 0 < streamerBufferSize := by norm_num [streamerBufferSize]
  omega

structure StreamerState where
  sampleRate : Nat
  audioQueue : List (List ℚ)
  isPlaying : Bool
  isStreamComplete : Bool
  checkInterval : Bool
  scheduledTime : ℚ
  endOfQueueSource : Option Nat
  gain : ℚ
  sched : List (ℚ × ℚ)
  nextSourceId : Nat
  completions : Nat
  endedCount : Nat
  errorCount : Nat

namespace AudioStreamer

/-- Constructor state: empty queue, not playing, gain node at its default
value 1. -/
def init (sr : Nat) : StreamerState :=
  ⟨sr, [], false, false, false, 0, none, 1, [], 0, 0, 0, 0⟩

/-- Model of `audioBuffer.duration` = frame count / sample rate. -/
def blockDuration (sr : Nat) (b : List ℚ) : ℚ := (b.length : ℚ) / (sr : ℚ)

/-- Model of `SCHEDULE_AHEAD_TIME = 0.2`. -/
def scheduleAheadTime : ℚ := 1/5

/-- Model of `this.initialBufferTime = 0.1`. -/
def initialBufferTime : ℚ := 1/10

/-- The `while` loop plus trailing queue-empty handling of
`scheduleNextBuffer`: while blocks remain and the cursor is within the
lookahead, shift a block, mark it end-of-queue if the queue drained, start
it at `max(scheduledTime, currentTime)` and advance the cursor by its
duration.  When the loop leaves the queue empty: stop playing (and clear
the poll interval) if the stream is complete, otherwise arm the 100ms poll
interval; with blocks left, the re-arming `setTimeout` appears as a later
`schedule` event. -/
def scheduleNextBuffer (clock : Nat → ℚ) (k : Nat) (s : StreamerState) : StreamerState :=
  match hq : s.audioQueue with
  | [] =>
    if s.isStreamComplete then { s with isPlaying := false, checkInterval := false }
    else { s with checkInterval := true }
  | b :: rest =>
    if s.scheduledTime < clock k + scheduleAheadTime then
      scheduleNextBuffer clock (k + 1)
        { s with
          audioQueue := rest
          endOfQueueSource := if rest.isEmpty then some s.nextSourceId else s.endOfQueueSource
          scheduledTime := max s.scheduledTime (clock k) + blockDuration s.sampleRate b
          sched := s.sched ++ [(max s.scheduledTime (clock k), clock k)]
          nextSourceId := s.nextSourceId + 1 }
    else s
termination_by s.audioQueue.length
decreasing_by simp [hq]

/-- The chunk-intake part of `addPCM16`: reset the stream-complete flag,
decode the chunk (reporting decode errors through `onError`), and append
the sliced blocks to the queue. -/
def addPCM16Push (chunk : List Nat) (s : StreamerState) : StreamerState :=
  { s with
    isStreamComplete := false
    errorCount := s.errorCount + (processPCM16Chunk chunk).2
    audioQueue := s.audioQueue ++ sliceBlocks (processPCM16Chunk chunk).1 }

/-- Model of `addPCM16`: intake the chunk; if not yet playing, start playing with the
cursor at `currentTime + initialBufferTime` and run the scheduler. -/
def addPCM16 (chunk : List Nat) (now : ℚ) (clock : Nat → ℚ) (s : StreamerState) :
    StreamerState :=
  if (addPCM16Push chunk s).isPlaying then addPCM16Push chunk s
  else
    scheduleNextBuffer clock 0
      { addPCM16Push chunk s with
        isPlaying := true
        scheduledTime := now + initialBufferTime }

/-- The `onended` handler attached to the block that drained the queue:
if the queue is still empty and this source is still the registered
end-of-queue source, clear the registration and, when the stream is marked
complete, fire `onComplete`. -/
def endedHandler (id : Nat) (s : StreamerState) : StreamerState :=
  if s.audioQueue.isEmpty && s.endOfQueueSource == some id then
    if s.isStreamComplete then
      { s with endedCount := s.endedCount + 1, endOfQueueSource := none,
               completions := s.completions + 1 }
    else
      { s with endedCount := s.endedCount + 1, endOfQueueSource := none }
  else { s with endedCount := s.endedCount + 1 }

/-- Model of `complete()`: mark the stream complete; if no blocks remain queued,
fire `onComplete` immediately. -/
def complete (s : StreamerState) : StreamerState :=
  if s.audioQueue.isEmpty then
    { s with isStreamComplete := true, completions := s.completions + 1 }
  else { s with isStreamComplete := true }

/-- Model of `setVolume`: clamp to [0,1] and assign to the output gain node. -/
def setVolume (v : ℚ) (s : StreamerState) : StreamerState :=
  { s with gain := max 0 (min 1 v) }

end AudioStreamer

/-- Events of one streamer instance: chunk arrival, a scheduler invocation
(from the poll interval or the re-arming timeout), delivery of a source's
`onended`, the end-of-stream mark, and volume changes. -/
inductive StreamerEv where
  | add (chunk : List Nat) (now : ℚ) (clock : Nat → ℚ)
  | schedule (clock : Nat → ℚ)
  | ended (id : Nat)
  | complete
  | setVolume (v : ℚ)

def StreamerEv.isCompleteEv : StreamerEv → Bool
  | .complete => true
  | _ => false

def StreamerEv.isEndedEv : StreamerEv → Bool
  | .ended _ => true
  | _ => false

def streamerStep : StreamerEv → StreamerState → StreamerState
  | .add chunk now clock, s => AudioStreamer.addPCM16 chunk now clock s
  | .schedule clock, s => AudioStreamer.scheduleNextBuffer clock 0 s
  | .ended id, s => AudioStreamer.endedHandler id s
  | .complete, s => AudioStreamer.complete s
  | .setVolume v, s => AudioStreamer.setVolume v s

def streamerRun (s : StreamerState) : List StreamerEv → StreamerState
  | [] => s
  | e :: es => streamerRun (streamerStep e s) es

/-- Scheduling invariant of one live stream (no `complete()` yet): the
ghost list `sched` of (start time, clock reading at scheduling) pairs has
non-decreasing start times, each at or after the clock reading that
produced it and at or before the cursor; before playback starts nothing has
been scheduled and no blocks are queued. -/
def SchedInv (s : StreamerState) : Prop :=
  s.isStreamComplete = false ∧
  (s.isPlaying = false → s.sched = [] ∧ s.audioQueue = []) ∧
  List.Pairwise (· ≤ ·) (s.sched.map Prod.fst) ∧
  (∀ p ∈ s.sched, p.2 ≤ p.1) ∧
  (∀ p ∈ s.sched, p.1 ≤ s.scheduledTime)

/-! ## Playback queue manager (useAudioPlayback, useWebSocketAudio.ts lines 851-1493)

The playback attempt (`playAudioBuffer`) decodes and starts a Web Audio
source; its outcome is environmental, so each queue-processing step takes a
`PlayResult` oracle: success (the source started; its later `onended` is a
separate event) or failure with the error type that `playAudioBuffer`'s
`catch` assigns (`decode`/`context`/`playback` — the message-classification
`else` branch maps anything unrecognized to `playback`, and `queue` is
logged by `enqueueAudio` for invalid input).  `setTimeout(processQueue, d)`
registrations append `d` to the ghost `pendingDelays` list and a later
`tick` event consumes one; `enqueuedOrder`/`playedOrder` are ghost lists of
item ids in enqueue order and in playback-start order. -/

inductive AudioErrorType where
  | decode
  | context
  | playback
  | queue
  | unknown
deriving DecidableEq

inductive PlayResult where
  | success
  | failure (t : AudioErrorType)
deriving DecidableEq

structure PBItem where
  id : Nat
  size : Nat
  source : String
  streamingMeta : Bool
  retryCount : Nat
deriving DecidableEq

/-- Model of `nextItem.source === 'websocket-streaming' || nextItem.metadata?.streaming === true`. -/
def PBItem.isStreamingChunk (it : PBItem) : Bool :=
  it.source == "websocket-streaming" || it.streamingMeta

structure PBState where
  queue : List PBItem
  isPlaying : Bool
  currentItem : Option PBItem
  queueLength : Nat
  errorCount : Nat
  isRecovering : Bool
  lastError : Option AudioErrorType
  volume : ℚ
  isMuted : Bool
  gain : ℚ
  nextId : Nat
  enqueuedOrder : List Nat
  playedOrder : List Nat
  pendingDelays : List Nat
deriving DecidableEq

/-- Initial reactive state: empty queue, volume 1.0, unmuted, gain node at
`isMuted ? 0 : volume` = 1. -/
def pbInit : PBState :=
  ⟨[], false, none, 0, 0, false, none, 1, false, 1, 0, [], [], []⟩

/-- Model of `shouldSkipItem`: skip items with decode errors. -/
def shouldSkipItem (t : AudioErrorType) : Bool := t == .decode

/-- Model of `shouldRetryItem`: retry context or playback errors. -/
def shouldRetryItem (t : AudioErrorType) : Bool := t == .context || t == .playback

/-- Model of `isHealthy = computed(() => state.errorCount < 3 && !state.isRecovering)`
(source line 898). -/
def isHealthy (errorCount : Nat) (isRecovering : Bool) : Bool :=
  decide (errorCount < 3) && !isRecovering

/-- Modelled from the spec's words, for comparison with the code's
`isHealthy`: the claim reads the health threshold as 5 ("once the counter
reaches 5, isHealthy becomes false"), i.e. healthy below 5 failures when
not recovering. -/
def isHealthyClaim (errorCount : Nat) (isRecovering : Bool) : Bool :=
  decide (errorCount < 5) && !isRecovering

/-- One invocation of `processQueue` with playback outcome `res`: return if
already playing or the queue is empty; at `errorCount ≥ 5` set
`isRecovering` and halt; otherwise dequeue the head (`dequeueAudio`, which
also updates `queueLength`), set it current and attempt playback.  Success:
`isPlaying` stays true (set before decoding) and the error counter is
decremented with floor 0.  Failure: `playAudioBuffer`'s error path has
already incremented the counter, recorded `lastError` and cleared
`isPlaying`/`currentItem`; then decode errors skip the item (100ms
follow-up), context/playback errors with fewer than 2 retries re-queue the
item at the front with `retryCount + 1` and a 1000ms backoff — except
streaming-tagged items, which are skipped instead — and anything else gives
the item up (500ms follow-up). -/
def processQueue (res : PlayResult) (s : PBState) : PBState :=
  if s.isPlaying || s.queue.isEmpty then s
  else if 5 ≤ s.errorCount then { s with isRecovering := true }
  else
    match s.queue with
    | [] => s
    | it :: rest =>
      match res with
      | .success =>
        { s with
          queue := rest
          queueLength := rest.length
          currentItem := some it
          isPlaying := true
          playedOrder := s.playedOrder ++ [it.id]
          errorCount := s.errorCount - 1 }
      | .failure et =>
        if shouldSkipItem et then
          { s with
            queue := rest
            queueLength := rest.length
            currentItem := none
            isPlaying := false
            errorCount := s.errorCount + 1
            lastError := some et
            pendingDelays := s.pendingDelays ++ [100] }
        else if shouldRetryItem et && decide (it.retryCount < 2) then
          if it.isStreamingChunk then
            { s with
              queue := rest
              queueLength := rest.length
              currentItem := none
              isPlaying := false
              errorCount := s.errorCount + 1
              lastError := some et
              pendingDelays := s.pendingDelays ++ [100] }
          else
            { s with
              queue := { it with retryCount := it.retryCount + 1 } :: rest
              queueLength := ({ it with retryCount := it.retryCount + 1 } :: rest).length
              currentItem := none
              isPlaying := false
              errorCount := s.errorCount + 1
              lastError := some et
              pendingDelays := s.pendingDelays ++ [1000] }
        else
          { s with
            queue := rest
            queueLength := rest.length
            currentItem := none
            isPlaying := false
            errorCount := s.errorCount + 1
            lastError := some et
            pendingDelays := s.pendingDelays ++ [500] }

/-- The append part of `enqueueAudio`: the new item (owned copy, fresh id,
retryCount 0) goes to the back of the queue and `queueLength` tracks the
queue. -/
def enqueuePush (size : Nat) (src : String) (streamingMeta : Bool) (s : PBState) : PBState :=
  { s with
    queue := s.queue ++ [⟨s.nextId, size, src, streamingMeta, 0⟩]
    queueLength := (s.queue ++ ([⟨s.nextId, size, src, streamingMeta, 0⟩] : List PBItem)).length
    nextId := s.nextId + 1
    enqueuedOrder := s.enqueuedOrder ++ [s.nextId] }

/-- Model of `enqueueAudio`: reject empty payloads (`logError('QUEUE_ERROR', …)` and
throw — the counter grows, nothing is queued); otherwise append the new
item and, when neither playing nor recovering, immediately run
`processQueue`. -/
def enqueueAudio (size : Nat) (src : String) (streamingMeta : Bool) (res : PlayResult)
    (s : PBState) : PBState :=
  if size = 0 then
    { s with errorCount := s.errorCount + 1, lastError := some .queue }
  else if !(enqueuePush size src streamingMeta s).isPlaying &&
      !(enqueuePush size src streamingMeta s).isRecovering then
    processQueue res (enqueuePush size src streamingMeta s)
  else
    enqueuePush size src streamingMeta s

/-- The `onended` handler of a successfully started source: clear the
playing flags and schedule the next `processQueue` run in 100ms. -/
def playbackEnded (s : PBState) : PBState :=
  { s with isPlaying := false, currentItem := none,
           pendingDelays := s.pendingDelays ++ [100] }

/-- Model of `clearErrors`. -/
def clearErrors (s : PBState) : PBState :=
  { s with lastError := none, errorCount := 0, isRecovering := false }

/-- Model of `clearQueue`: empty the queue and clear errors (which also resets
`isRecovering`). -/
def clearQueue (s : PBState) : PBState :=
  clearErrors { s with queue := [], queueLength := 0 }

/-- Model of `stopPlayback`. -/
def stopPlayback (s : PBState) : PBState :=
  { s with isPlaying := false, currentItem := none }

/-- Model of `pauseQueue` = stop playback, keep the queue. -/
def pauseQueue (s : PBState) : PBState := stopPlayback s

/-- Model of `resumeQueue`: run `processQueue` when idle, non-empty and not
recovering. -/
def resumeQueue (res : PlayResult) (s : PBState) : PBState :=
  if !s.isPlaying && !s.queue.isEmpty && !s.isRecovering then processQueue res s else s

/-- Model of the synchronous prefix of `recoverFromErrors`: on entry it
unconditionally sets `state.isRecovering = true` (line 1290) and stops
playback, then suspends at `await audioContext.value.close()` — so this
intermediate state is observable by other events regardless of the error
counter. -/
def recoverBegin (s : PBState) : PBState :=
  stopPlayback { s with isRecovering := true }

/-- Model of the continuation of `recoverFromErrors` after its awaits:
close and re-create the audio context (the new gain node gets
`isMuted ? 0 : volume`), clear the errors (`clearErrors` resets the counter
and clears `isRecovering`), schedule queue processing in 500ms when items
remain, and leave `isRecovering` false (the `finally` clears the transient
flag again). -/
def recoverFinish (s : PBState) : PBState :=
  if s.queue.isEmpty then
    { clearErrors s with gain := if s.isMuted then 0 else s.volume }
  else
    { clearErrors s with
      gain := if s.isMuted then 0 else s.volume
      pendingDelays := s.pendingDelays ++ [500] }

/-- Whole `recoverFromErrors`: entry and continuation composed — its net
effect when no other event interleaves at the suspension point. -/
def recoverFromErrors (s : PBState) : PBState :=
  recoverFinish (recoverBegin s)

/-- Model of `setVolume` (useAudioPlayback): clamp to [0,1], store it, and apply it
to the gain node unless muted. -/
def setVolume (v : ℚ) (s : PBState) : PBState :=
  let c := max 0 (min 1 v)
  if s.isMuted then { s with volume := c } else { s with volume := c, gain := c }

/-- Model of `toggleMute`: flip the flag and set the gain node to 0 or the stored
volume. -/
def toggleMute (s : PBState) : PBState :=
  { s with isMuted := !s.isMuted, gain := if !s.isMuted then 0 else s.volume }

/-- Events of the playback queue manager.  `enq` carries the payload size,
resolved source tag and streaming metadata flag of the new item plus the
playback outcome used if processing starts immediately; `tick` is a
deferred `setTimeout(processQueue, _)` firing (it consumes one registered
delay).  `recoverFromErrors` suspends at its awaits, so its entry
(`recoverBegin`) and its continuation (`recoverFinish`) are separate
events. -/
inductive PBEv where
  | enq (size : Nat) (src : String) (streamingMeta : Bool) (res : PlayResult)
  | tick (res : PlayResult)
  | ended
  | clear
  | recoverBegin
  | recoverFinish
  | pause
  | resume (res : PlayResult)
  | stop
  | setVol (v : ℚ)
  | mute
deriving DecidableEq

def pbStep (e : PBEv) (s : PBState) : PBState :=
  match e with
  | .enq size src sm res => enqueueAudio size src sm res s
  | .tick res => processQueue res { s with pendingDelays := s.pendingDelays.tail }
  | .ended => playbackEnded s
  | .clear => clearQueue s
  | .recoverBegin => recoverBegin s
  | .recoverFinish => recoverFinish s
  | .pause => pauseQueue s
  | .resume res => resumeQueue res s
  | .stop => stopPlayback s
  | .setVol v => setVolume v s
  | .mute => toggleMute s

def pbRunFrom (s : PBState) : List PBEv → PBState
  | [] => s
  | e :: es => pbRunFrom (pbStep e s) es

def pbRun (evs : List PBEv) : PBState := pbRunFrom pbInit evs

/-- Retry bookkeeping a queue item must satisfy: never more than 2 retries,
and none at all for streaming-tagged items. -/
def RetryOk (it : PBItem) : Prop :=
  it.retryCount ≤ 2 ∧ (it.isStreamingChunk = true → it.retryCount = 0)

def RetryInv (s : PBState) : Prop :=
  (∀ it ∈ s.queue, RetryOk it) ∧
  (∀ it : PBItem, s.currentItem = some it → RetryOk it)

/-- FIFO bookkeeping: the enqueue ghost order is exactly the playback-start
ghost order followed by the ids still queued, and `queueLength` tracks the
queue. -/
def FifoInv (s : PBState) : Prop :=
  s.enqueuedOrder = s.playedOrder ++ s.queue.map PBItem.id ∧
  s.queueLength = s.queue.length

/-- Events under which the FIFO correspondence is stated: no failures (all
playback outcomes succeed) and no queue clearing. -/
def PBEv.fifoSafe : PBEv → Bool
  | .enq _ _ _ res => res == PlayResult.success
  | .tick res => res == PlayResult.success
  | .resume res => res == PlayResult.success
  | .clear => false
  | _ => true

/-- Volume state a reachable playback manager always satisfies. -/
def VolInv (s : PBState) : Prop :=
  0 ≤ s.gain ∧ s.gain ≤ 1 ∧ 0 ≤ s.volume ∧ s.volume ≤ 1

/-! ## Theorems -/

/-- C6 counterexample.  The dedup cache keys on the fingerprint
(byte length, first 16 bytes), not on the full byte sequence.  Chunks
`A = 0^16 ++ [0]` and `B = 0^16 ++ [1]` differ as byte sequences but share
one fingerprint.  Submitting `[A, B, B]` forwards only `A`: the byte
sequence `B`, submitted twice within the cache window, is forwarded zero
times, not exactly once as the claim states. -/
theorem processPCMChunkDedup_collision_counterexample :
    (List.replicate 16 0 ++ [0] : List Nat) ≠ List.replicate 16 0 ++ [1] ∧
    (processPCMChunkDedupRun []
      [List.replicate 16 0 ++ [0], List.replicate 16 0 ++ [1],
       List.replicate 16 0 ++ [1]]).1 = [true, false, false] := by
  decide

/-- After processing a chunk, its fingerprint is always in the cache (it was
either already there or just inserted; FIFO eviction removes the oldest
entry, never the one just inserted). -/
theorem chunkFingerprint_mem_after (cache : List (Nat × List Nat)) (c : List Nat) :
    chunkFingerprint c ∈ (processPCMChunkDedup cache c).2 := by
  rw [processPCMChunkDedup]
  by_cases hmem : chunkFingerprint c ∈ cache
  · rw [if_pos hmem]
    exact hmem
  · rw [if_neg hmem]
    by_cases hlen : dedupCacheSize < (cache ++ [chunkFingerprint c]).length
    · rw [if_pos hlen]
      rcases cache with _ | ⟨a, as⟩
      · simp [dedupCacheSize] at hlen
      · simp
    · rw [if_neg hlen]
      simp

/-- C6 (amended): the dedup cache of `processPCMChunk` drops any chunk whose
fingerprint (byte length, first 16 bytes) is still cached and forwards any
chunk whose fingerprint is not, caching the fingerprint; the cache stays
capped at 100 entries and eviction removes the oldest (FIFO); consequently a
chunk resubmitted immediately after being processed is never forwarded a
second time — so an identical byte sequence submitted twice within the
window is forwarded at most once, and exactly once provided no distinct
earlier chunk with the same fingerprint was in the window. -/
theorem processPCMChunkDedup_spec (cache : List (Nat × List Nat)) (c : List Nat)
    (hcap : cache.length ≤ dedupCacheSize) :
    (chunkFingerprint c ∈ cache → processPCMChunkDedup cache c = (false, cache)) ∧
    (chunkFingerprint c ∉ cache →
      (processPCMChunkDedup cache c).1 = true ∧
      chunkFingerprint c ∈ (processPCMChunkDedup cache c).2 ∧
      (cache.length = dedupCacheSize →
        (processPCMChunkDedup cache c).2 = cache.tail ++ [chunkFingerprint c])) ∧
    (processPCMChunkDedup cache c).2.length ≤ dedupCacheSize ∧
    (processPCMChunkDedup ((processPCMChunkDedup cache c).2) c).1 = false := by
  refine ⟨?_, ?_, ?_, ?_⟩
  · intro hmem
    simp [processPCMChunkDedup, hmem]
  · intro hmem
    refine ⟨by rw [processPCMChunkDedup, if_neg hmem]; split <;> rfl,
      chunkFingerprint_mem_after cache c, ?_⟩
    intro hfull
    have hlen : dedupCacheSize < (cache ++ [chunkFingerprint c]).length := by
      simp [hfull]
    rcases cache with _ | ⟨a, as⟩
    · simp [dedupCacheSize] at hfull
    · rw [processPCMChunkDedup, if_neg hmem, if_pos hlen]
      simp
  · have h100 : dedupCacheSize = 100 := rfl
    by_cases hmem : chunkFingerprint c ∈ cache
    · rw [processPCMChunkDedup, if_pos hmem]
      exact hcap
    · by_cases hlen : dedupCacheSize < (cache ++ [chunkFingerprint c]).length
      · rw [processPCMChunkDedup, if_neg hmem, if_pos hlen]
        simp only [List.length_tail, List.length_append, List.length_singleton] at *
        omega
      · rw [processPCMChunkDedup, if_neg hmem, if_neg hlen]
        simp only [List.length_append, List.length_singleton] at *
        omega
  · have hmem2 := chunkFingerprint_mem_after cache c
    rw [processPCMChunkDedup, if_pos hmem2]

/-- Witness for `processPCMChunkDedup_spec` at an empty cache and the chunk
`[1, 2, 3]`. -/
theorem processPCMChunkDedup_spec_witness :
    ([] : List (Nat × List Nat)).length ≤ dedupCacheSize ∧
    ((processPCMChunkDedup [] [1, 2, 3]).1 = true ∧
      (processPCMChunkDedup ((processPCMChunkDedup [] [1, 2, 3]).2) [1, 2, 3]).1 = false) := by
  refine ⟨by decide, ?_, (processPCMChunkDedup_spec [] [1, 2, 3] (by decide)).2.2.2⟩
  exact ((processPCMChunkDedup_spec [] [1, 2, 3] (by decide)).2.1 (by decide)).1

theorem vadRun_append (cfg : VADConfig) :
    ∀ (xs ys : List (Nat × ℚ)) (s : VADState),
      vadRun cfg s (xs ++ ys) = vadRun cfg (vadRun cfg s xs) ys
  | [], _, _ => rfl
  | p :: ps, ys, s => vadRun_append cfg ps ys (analyzeVolume cfg p.1 p.2 s)

/-- A sample above the threshold leaves the post-`onVoiceStart` state
(speaking, no pending deadlines) unchanged. -/
theorem analyzeVolume_speaking_above (cfg : VADConfig) (t : Nat) (v : ℚ)
    (h : cfg.volumeThreshold < v) (a b : Nat) :
    analyzeVolume cfg t v ⟨true, none, none, a, b⟩ = ⟨true, none, none, a, b⟩ := by
  simp [analyzeVolume, fireDueTimers, handleVoiceActivity, h]

/-- Above-threshold samples keep the speaking state with no pending
deadlines unchanged: no second `onVoiceStart` is ever emitted. -/
theorem vadRun_speaking_above (cfg : VADConfig) (a b : Nat) :
    ∀ samples : List (Nat × ℚ), (∀ p ∈ samples, cfg.volumeThreshold < p.2) →
      vadRun cfg ⟨true, none, none, a, b⟩ samples = ⟨true, none, none, a, b⟩
  | [], _ => rfl
  | (t, v) :: rest, h => by
    have hv : cfg.volumeThreshold < v := (h (t, v) (by simp))
    show vadRun cfg (analyzeVolume cfg t v ⟨true, none, none, a, b⟩) rest = _
    rw [analyzeVolume_speaking_above cfg t v hv]
    exact vadRun_speaking_above cfg a b rest fun p hp => h p (List.mem_cons_of_mem _ hp)

/-- An above-threshold sample before the pending voice deadline leaves the
waiting state unchanged. -/
theorem analyzeVolume_pending_early (cfg : VADConfig) (t : Nat) (v : ℚ) (d a b : Nat)
    (hv : cfg.volumeThreshold < v) (ht : t < d) :
    analyzeVolume cfg t v ⟨false, some d, none, a, b⟩ = ⟨false, some d, none, a, b⟩ := by
  have hnot : ¬d ≤ t := by omega
  simp [analyzeVolume, fireDueTimers, handleVoiceActivity, hv, hnot]

/-- An above-threshold sample at or after the pending voice deadline fires
the deadline: the state becomes speaking and `onVoiceStart` is emitted
once. -/
theorem analyzeVolume_pending_due (cfg : VADConfig) (t : Nat) (v : ℚ) (d a b : Nat)
    (hv : cfg.volumeThreshold < v) (ht : d ≤ t) :
    analyzeVolume cfg t v ⟨false, some d, none, a, b⟩ = ⟨true, none, none, a + 1, b⟩ := by
  simp [analyzeVolume, fireDueTimers, fireVoiceTimer, handleVoiceActivity, hv, ht]

/-- From the waiting state (voice deadline `d` pending, not speaking),
a run of above-threshold samples at least one of which is at or after `d`
ends speaking with exactly one new `onVoiceStart`. -/
theorem vadRun_pending_above (cfg : VADConfig) (d a b : Nat) :
    ∀ samples : List (Nat × ℚ), (∀ p ∈ samples, cfg.volumeThreshold < p.2) →
      (∃ p ∈ samples, d ≤ p.1) →
      vadRun cfg ⟨false, some d, none, a, b⟩ samples = ⟨true, none, none, a + 1, b⟩
  | [], _, hex => by simp at hex
  | (t, v) :: rest, h, hex => by
    have hv : cfg.volumeThreshold < v := (h (t, v) (by simp))
    show vadRun cfg (analyzeVolume cfg t v ⟨false, some d, none, a, b⟩) rest = _
    by_cases hdue : d ≤ t
    · rw [analyzeVolume_pending_due cfg t v d a b hv hdue]
      exact vadRun_speaking_above cfg (a + 1) b rest
        fun p hp => h p (List.mem_cons_of_mem _ hp)
    · rw [analyzeVolume_pending_early cfg t v d a b hv (by omega)]
      rcases hex with ⟨p, hp, hdp⟩
      rcases List.mem_cons.mp hp with rfl | hp'
      · exact absurd hdp hdue
      · exact vadRun_pending_above cfg d a b rest
          (fun p hp => h p (List.mem_cons_of_mem _ hp)) ⟨p, hp', hdp⟩

/-- From the waiting state, above-threshold samples that all come before
the pending deadline leave the state unchanged. -/
theorem vadRun_pending_above_early (cfg : VADConfig) (d a b : Nat) :
    ∀ samples : List (Nat × ℚ),
      (∀ p ∈ samples, cfg.volumeThreshold < p.2 ∧ p.1 < d) →
      vadRun cfg ⟨false, some d, none, a, b⟩ samples = ⟨false, some d, none, a, b⟩
  | [], _ => rfl
  | (t, v) :: rest, h => by
    obtain ⟨hv, ht⟩ := h (t, v) (by simp)
    show vadRun cfg (analyzeVolume cfg t v ⟨false, some d, none, a, b⟩) rest = _
    rw [analyzeVolume_pending_early cfg t v d a b hv ht]
    exact vadRun_pending_above_early cfg d a b rest
      fun p hp => h p (List.mem_cons_of_mem _ hp)

/-- C7: for every volume-sample sequence fed to the VAD while not already
speaking: (1) a first above-threshold sample at `t0` followed by samples
that stay above the threshold, at least one of them at or past the
`t0 + voiceTimeout` deadline, yields exactly one `onVoiceStart` and the
state becomes speaking (with both deadlines clear); (2) if the volume drops
to or below the threshold before the deadline fires, the pending deadline is
cancelled and no `onVoiceStart` is emitted. -/
theorem vad_voiceStart_spec (cfg : VADConfig) :
    (∀ (t0 : Nat) (v0 : ℚ) (rest : List (Nat × ℚ)),
      cfg.volumeThreshold < v0 →
      (∀ p ∈ rest, cfg.volumeThreshold < p.2) →
      (∃ p ∈ rest, t0 + cfg.voiceTimeout ≤ p.1) →
      vadRun cfg vadInit ((t0, v0) :: rest) = ⟨true, none, none, 1, 0⟩) ∧
    (∀ (t0 : Nat) (v0 : ℚ) (mid : List (Nat × ℚ)) (tb : Nat) (vb : ℚ),
      cfg.volumeThreshold < v0 →
      (∀ p ∈ mid, cfg.volumeThreshold < p.2 ∧ p.1 < t0 + cfg.voiceTimeout) →
      tb < t0 + cfg.voiceTimeout →
      vb ≤ cfg.volumeThreshold →
      vadRun cfg vadInit ((t0, v0) :: (mid ++ [(tb, vb)])) =
        ⟨false, none, none, 0, 0⟩) := by
  have hfirst : ∀ (t0 : Nat) (v0 : ℚ), cfg.volumeThreshold < v0 →
      analyzeVolume cfg t0 v0 vadInit =
        ⟨false, some (t0 + cfg.voiceTimeout), none, 0, 0⟩ := by
    intro t0 v0 hv
    simp [vadInit, analyzeVolume, fireDueTimers, handleVoiceActivity, hv]
  constructor
  · intro t0 v0 rest hv0 habove hdue
    show vadRun cfg (analyzeVolume cfg t0 v0 vadInit) rest = _
    rw [hfirst t0 v0 hv0]
    exact vadRun_pending_above cfg (t0 + cfg.voiceTimeout) 0 0 rest habove hdue
  · intro t0 v0 mid tb vb hv0 hmid htb hvb
    show vadRun cfg (analyzeVolume cfg t0 v0 vadInit) (mid ++ [(tb, vb)]) = _
    rw [hfirst t0 v0 hv0]
    have hmidrun := vadRun_pending_above_early cfg (t0 + cfg.voiceTimeout) 0 0 mid hmid
    rw [vadRun_append, hmidrun]
    show analyzeVolume cfg tb vb ⟨false, some (t0 + cfg.voiceTimeout), none, 0, 0⟩ = _
    have hnot : ¬t0 + cfg.voiceTimeout ≤ tb := by omega
    have hnv : ¬cfg.volumeThreshold < vb := not_lt.mpr hvb
    simp [analyzeVolume, fireDueTimers, handleSilence, hnv, hnot]

/-- Witness for `vad_voiceStart_spec` at the default config: samples above
the threshold at t = 0, 100, 200 (the 200ms deadline fires at the third
sample) give one `onVoiceStart`; samples above at t = 0, 100 followed by a
drop to zero at t = 150 cancel the deadline and give none. -/
theorem vad_voiceStart_spec_witness :
    (vadDefaultConfig.volumeThreshold < (1 : ℚ) / 50 ∧
      vadRun vadDefaultConfig vadInit [(0, 1/50), (100, 1/50), (200, 1/50)] =
        ⟨true, none, none, 1, 0⟩) ∧
    (vadRun vadDefaultConfig vadInit [(0, 1/50), (100, 1/50), (150, 0)] =
        ⟨false, none, none, 0, 0⟩) := by
  have hthr : vadDefaultConfig.volumeThreshold < (1 : ℚ) / 50 := by
    rw [vadDefaultConfig]
    norm_num
  have hT : vadDefaultConfig.voiceTimeout = 200 := rfl
  refine ⟨⟨hthr, ?_⟩, ?_⟩
  · refine (vad_voiceStart_spec vadDefaultConfig).1 0 (1/50) [(100, 1/50), (200, 1/50)]
      hthr ?_ ⟨(200, 1/50), by simp, by rw [hT]⟩
    intro p hp
    rcases List.mem_cons.mp hp with rfl | hp
    · exact hthr
    · rcases List.mem_cons.mp hp with rfl | hp
      · exact hthr
      · simp at hp
  · refine (vad_voiceStart_spec vadDefaultConfig).2 0 (1/50) [(100, 1/50)] 150 0
      hthr ?_ (by rw [hT]; omega) ?_
    · intro p hp
      rcases List.mem_cons.mp hp with rfl | hp
      · exact ⟨hthr, by rw [hT]; omega⟩
      · simp at hp
    · rw [vadDefaultConfig]
      norm_num

theorem processPCM16Chunk_err : ∀ l : List Nat, (processPCM16Chunk l).2 = l.length % 2
  | [] => rfl
  | [_] => rfl
  | _ :: _ :: rest => by
    simp only [processPCM16Chunk, processPCM16Chunk_err rest, List.length_cons]
    omega

theorem processPCM16Chunk_len : ∀ l : List Nat, (processPCM16Chunk l).1.length = l.length / 2
  | [] => rfl
  | [_] => by norm_num [processPCM16Chunk]
  | _ :: _ :: rest => by
    simp only [processPCM16Chunk, processPCM16Chunk_len rest, List.length_cons]
    omega

/-- Slicing a buffer into blocks loses no samples and keeps their order. -/
theorem sliceBlocks_flatten (buf : List ℚ) : (sliceBlocks buf).flatten = buf := by
  rw [sliceBlocks]
  by_cases h : streamerBufferSize ≤ buf.length
  · rw [dif_pos h]
    rw [List.flatten_cons, sliceBlocks_flatten (buf.drop streamerBufferSize)]
    exact List.take_append_drop _ _
  · rw [dif_neg h]
    by_cases he : buf.isEmpty
    · rw [if_pos he]
      simp [List.isEmpty_iff] at he
      simp [he]
    · rw [if_neg he]
      simp
termination_by buf.length
decreasing_by
  simp only [List.length_drop]
  have : 0 < streamerBufferSize := by norm_num [streamerBufferSize]
  omega

/-- The scheduling loop never touches the callback counters, the error
counter, the stream-complete flag or the gain node. -/
theorem scheduleNextBuffer_ghost (clock : Nat → ℚ) (k : Nat) (s : StreamerState) :
    (AudioStreamer.scheduleNextBuffer clock k s).completions = s.completions ∧
    (AudioStreamer.scheduleNextBuffer clock k s).endedCount = s.endedCount ∧
    (AudioStreamer.scheduleNextBuffer clock k s).errorCount = s.errorCount ∧
    (AudioStreamer.scheduleNextBuffer clock k s).isStreamComplete = s.isStreamComplete ∧
    (AudioStreamer.scheduleNextBuffer clock k s).gain = s.gain := by
  rw [AudioStreamer.scheduleNextBuffer]
  split
  · split
    · exact ⟨rfl, rfl, rfl, rfl, rfl⟩
    · exact ⟨rfl, rfl, rfl, rfl, rfl⟩
  · split
    · exact scheduleNextBuffer_ghost clock (k + 1) _
    · exact ⟨rfl, rfl, rfl, rfl, rfl⟩
termination_by s.audioQueue.length
decreasing_by simp_all

theorem blockDuration_nonneg (sr : Nat) (b : List ℚ) :
    0 ≤ AudioStreamer.blockDuration sr b := by
  unfold AudioStreamer.blockDuration
  positivity

theorem scheduleNextBuffer_inv (clock : Nat → ℚ) (k : Nat) (s : StreamerState)
    (h : SchedInv s) : SchedInv (AudioStreamer.scheduleNextBuffer clock k s) := by
  rw [AudioStreamer.scheduleNextBuffer]
  split
  · rename_i heq
    obtain ⟨h1, h2, h3, h4, h5⟩ := h
    split
    · rename_i hc
      rw [h1] at hc
      cases hc
    · exact ⟨h1, fun hp => ⟨(h2 hp).1, heq⟩, h3, h4, h5⟩
  · rename_i b rest heq
    split
    · rename_i ht
      apply scheduleNextBuffer_inv clock (k + 1)
      obtain ⟨h1, h2, h3, h4, h5⟩ := h
      have hplay : s.isPlaying = true := by
        by_contra hp
        have hq0 := (h2 (by simpa using hp)).2
        rw [hq0] at heq
        cases heq
      refine ⟨h1, ?_, ?_, ?_, ?_⟩
      · intro hp
        rw [hplay] at hp
        cases hp
      · rw [List.map_append]
        apply List.pairwise_append.mpr
        refine ⟨h3, by simp, ?_⟩
        intro a ha b' hb'
        simp only [List.map_cons, List.map_nil, List.mem_singleton] at hb'
        subst hb'
        obtain ⟨p, hp, rfl⟩ := List.mem_map.mp ha
        exact le_trans (h5 p hp) (le_max_left _ _)
      · intro p hp
        rcases List.mem_append.mp hp with hp | hp
        · exact h4 p hp
        · rw [List.mem_singleton] at hp
          subst hp
          exact le_max_right _ _
      · intro p hp
        rcases List.mem_append.mp hp with hp | hp
        · exact le_trans (h5 p hp)
            (le_trans (le_max_left _ _) (le_add_of_nonneg_right (blockDuration_nonneg _ _)))
        · rw [List.mem_singleton] at hp
          subst hp
          exact le_add_of_nonneg_right (blockDuration_nonneg _ _)
    · exact h
termination_by s.audioQueue.length
decreasing_by simp_all

theorem streamerStep_inv (e : StreamerEv) (s : StreamerState)
    (he : e.isCompleteEv = false) (h : SchedInv s) : SchedInv (streamerStep e s) := by
  obtain ⟨h1, h2, h3, h4, h5⟩ := h
  cases e with
  | add chunk now clock =>
    show SchedInv (AudioStreamer.addPCM16 chunk now clock s)
    rw [AudioStreamer.addPCM16]
    by_cases hp : (AudioStreamer.addPCM16Push chunk s).isPlaying
    · rw [if_pos hp]
      refine ⟨rfl, ?_, h3, h4, h5⟩
      intro hx
      have hp' : s.isPlaying = true := hp
      have hx' : s.isPlaying = false := hx
      rw [hp'] at hx'
      cases hx'
    · rw [if_neg hp]
      apply scheduleNextBuffer_inv
      have hp' : s.isPlaying = false := by
        have := hp
        simp only [Bool.not_eq_true] at this
        exact this
      have hs0 : s.sched = [] := (h2 hp').1
      refine ⟨rfl, ?_, ?_, ?_, ?_⟩
      · intro hx
        simp at hx
      · show List.Pairwise _ ((s.sched.map Prod.fst))
        rw [hs0]
        exact List.Pairwise.nil
      · show ∀ p ∈ s.sched, _
        rw [hs0]
        intro p hp
        cases hp
      · show ∀ p ∈ s.sched, _
        rw [hs0]
        intro p hp
        cases hp
  | schedule clock => exact scheduleNextBuffer_inv clock 0 s ⟨h1, h2, h3, h4, h5⟩
  | ended id =>
    show SchedInv (AudioStreamer.endedHandler id s)
    rw [AudioStreamer.endedHandler]
    split
    · split
      · exact ⟨h1, h2, h3, h4, h5⟩
      · exact ⟨h1, h2, h3, h4, h5⟩
    · exact ⟨h1, h2, h3, h4, h5⟩
  | complete => simp [StreamerEv.isCompleteEv] at he
  | setVolume v => exact ⟨h1, h2, h3, h4, h5⟩

theorem streamerRun_inv : ∀ (evs : List StreamerEv) (s : StreamerState),
    (∀ e ∈ evs, e.isCompleteEv = false) → SchedInv s → SchedInv (streamerRun s evs)
  | [], _, _, h => h
  | e :: es, s, hall, h =>
    streamerRun_inv es _ (fun x hx => hall x (List.mem_cons_of_mem _ hx))
      (streamerStep_inv e s (hall e (by simp)) h)

theorem streamerInit_inv (sr : Nat) : SchedInv (AudioStreamer.init sr) := by
  refine ⟨rfl, fun _ => ⟨rfl, rfl⟩, List.Pairwise.nil, ?_, ?_⟩
  · intro p hp
    simp [AudioStreamer.init] at hp
  · intro p hp
    simp [AudioStreamer.init] at hp

/-- C1: during one stream (any event sequence with no `complete()`), each
block is scheduled at `max(scheduledCursor, clock.now())` and the cursor
then advances to that start plus the block's duration (third conjunct, the
one-iteration unfolding of `scheduleNextBuffer`); consequently the recorded
start times are non-decreasing and each start time is at or after the clock
reading taken at the moment it was scheduled. -/
theorem audioStreamer_schedule_invariant (sr : Nat) (evs : List StreamerEv)
    (h : ∀ e ∈ evs, e.isCompleteEv = false) :
    List.Pairwise (· ≤ ·)
      ((streamerRun (AudioStreamer.init sr) evs).sched.map Prod.fst) ∧
    (∀ p ∈ (streamerRun (AudioStreamer.init sr) evs).sched, p.2 ≤ p.1) ∧
    (∀ (clock : Nat → ℚ) (k : Nat) (t : StreamerState) (b : List ℚ)
        (rest : List (List ℚ)),
      t.audioQueue = b :: rest →
      t.scheduledTime < clock k + AudioStreamer.scheduleAheadTime →
      AudioStreamer.scheduleNextBuffer clock k t =
        AudioStreamer.scheduleNextBuffer clock (k + 1)
          { t with
            audioQueue := rest
            endOfQueueSource := if rest.isEmpty then some t.nextSourceId else t.endOfQueueSource
            scheduledTime := max t.scheduledTime (clock k) +
              AudioStreamer.blockDuration t.sampleRate b
            sched := t.sched ++ [(max t.scheduledTime (clock k), clock k)]
            nextSourceId := t.nextSourceId + 1 }) := by
  have hinv := streamerRun_inv evs (AudioStreamer.init sr) h (streamerInit_inv sr)
  refine ⟨hinv.2.2.1, hinv.2.2.2.1, ?_⟩
  intro clock k t b rest hq ht
  conv_lhs => rw [AudioStreamer.scheduleNextBuffer]
  split
  · rename_i heq
    rw [hq] at heq
    cases heq
  · rename_i b' rest' heq
    rw [hq] at heq
    injection heq with hb hrest
    subst hb
    subst hrest
    rw [if_pos ht]

/-- Witness for `audioStreamer_schedule_invariant`: one 2-byte chunk added
at clock 0. -/
theorem audioStreamer_schedule_invariant_witness :
    (∀ e ∈ [StreamerEv.add [0, 0] 0 (fun _ => 0)], e.isCompleteEv = false) ∧
    List.Pairwise (· ≤ ·)
      ((streamerRun (AudioStreamer.init 24000)
        [StreamerEv.add [0, 0] 0 (fun _ => 0)]).sched.map Prod.fst) := by
  have hh : ∀ e ∈ [StreamerEv.add [0, 0] 0 (fun _ => 0)], e.isCompleteEv = false := by
    intro e he
    rw [List.mem_singleton] at he
    subst he
    rfl
  exact ⟨hh, (audioStreamer_schedule_invariant 24000 _ hh).1⟩

/-- Unfolding `scheduleNextBuffer` on an empty queue with the stream not yet
complete: the 100ms poll interval is armed and nothing else changes. -/
theorem scheduleNextBuffer_nil (clock : Nat → ℚ) (k : Nat) (s : StreamerState)
    (hq : s.audioQueue = []) (hc : s.isStreamComplete = false) :
    AudioStreamer.scheduleNextBuffer clock k s = { s with checkInterval := true } := by
  rw [AudioStreamer.scheduleNextBuffer]
  split
  · split
    · rename_i hcomp
      rw [hc] at hcomp
      cases hcomp
    · rfl
  · rename_i b rest heq
    rw [hq] at heq
    cases heq

/-- Unfolding `scheduleNextBuffer` on a nonempty queue within the lookahead:
one block is shifted and scheduled at `max(scheduledTime, clock k)`, the
cursor advances by its duration, and the loop continues. -/
theorem scheduleNextBuffer_cons (clock : Nat → ℚ) (k : Nat) (s : StreamerState)
    (b : List ℚ) (rest : List (List ℚ)) (hq : s.audioQueue = b :: rest)
    (ht : s.scheduledTime < clock k + AudioStreamer.scheduleAheadTime) :
    AudioStreamer.scheduleNextBuffer clock k s =
      AudioStreamer.scheduleNextBuffer clock (k + 1)
        { s with
          audioQueue := rest
          endOfQueueSource := if rest.isEmpty then some s.nextSourceId else s.endOfQueueSource
          scheduledTime := max s.scheduledTime (clock k) +
            AudioStreamer.blockDuration s.sampleRate b
          sched := s.sched ++ [(max s.scheduledTime (clock k), clock k)]
          nextSourceId := s.nextSourceId + 1 } := by
  conv_lhs => rw [AudioStreamer.scheduleNextBuffer]
  split
  · rename_i heq
    rw [hq] at heq
    cases heq
  · rename_i b' rest' heq
    rw [hq] at heq
    injection heq with hb hrest
    subst hb
    subst hrest
    rw [if_pos ht]

/-- A buffer shorter than the block size becomes one (final, shorter)
block. -/
theorem sliceBlocks_short (buf : List ℚ) (hlen : buf.length < streamerBufferSize)
    (hne : buf ≠ []) : sliceBlocks buf = [buf] := by
  rw [sliceBlocks]
  rw [dif_neg (by omega)]
  rw [if_neg (by simpa using hne)]

/-- Evaluating one 2-byte chunk added at clock 0 to a fresh 24000Hz
streamer: its single one-sample block is scheduled immediately, the queue
drains, the block's source becomes the registered end-of-queue source, and
no completion has fired. -/
theorem addPCM16_two_byte_run :
    streamerRun (AudioStreamer.init 24000) [StreamerEv.add [0, 0] 0 (fun _ => 0)] =
      { sampleRate := 24000
        audioQueue := []
        isPlaying := true
        isStreamComplete := false
        checkInterval := true
        scheduledTime := max (0 + AudioStreamer.initialBufferTime) 0 +
          AudioStreamer.blockDuration 24000 [toFloatSample 0 0]
        endOfQueueSource := some 0
        gain := 1
        sched := [(max (0 + AudioStreamer.initialBufferTime) 0, 0)]
        nextSourceId := 1
        completions := 0
        endedCount := 0
        errorCount := 0 } := by
  show AudioStreamer.addPCM16 [0, 0] 0 (fun _ => 0) (AudioStreamer.init 24000) = _
  rw [AudioStreamer.addPCM16]
  rw [if_neg (by decide)]
  rw [scheduleNextBuffer_cons (fun _ => 0) 0 _ [toFloatSample 0 0] []
    (by
      show ([] : List (List ℚ)) ++ sliceBlocks (processPCM16Chunk [0, 0]).1 =
        [toFloatSample 0 0] :: []
      rw [List.nil_append]
      exact sliceBlocks_short _ (by simp [streamerBufferSize, processPCM16Chunk])
        (by simp [processPCM16Chunk]))
    (by
      show (0 : ℚ) + AudioStreamer.initialBufferTime < 0 + AudioStreamer.scheduleAheadTime
      norm_num [AudioStreamer.initialBufferTime, AudioStreamer.scheduleAheadTime])]
  rw [scheduleNextBuffer_nil (fun _ => 0) 1 _ rfl rfl]
  rfl

/-- C2 counterexample.  One 2-byte chunk is added and scheduled (queue
drains, block still playing: `endedCount = 0`); `complete()` then fires
`onComplete` immediately — before the last scheduled block has finished —
and when the block's `onended` later arrives the end-of-queue handler fires
`onComplete` a second time: two firings for one stream, the first one
before the last block finished, refuting both "never fires before the last
scheduled block finishes" and "never fires a second time". -/
theorem audioStreamer_onComplete_counterexample :
    ((streamerRun (AudioStreamer.init 24000)
        [StreamerEv.add [0, 0] 0 (fun _ => 0), StreamerEv.complete]).completions = 1 ∧
      (streamerRun (AudioStreamer.init 24000)
        [StreamerEv.add [0, 0] 0 (fun _ => 0), StreamerEv.complete]).endedCount = 0) ∧
    (streamerRun (AudioStreamer.init 24000)
        [StreamerEv.add [0, 0] 0 (fun _ => 0), StreamerEv.complete,
          StreamerEv.ended 0]).completions = 2 := by
  refine ⟨⟨?_, ?_⟩, ?_⟩
  · show (AudioStreamer.complete (streamerRun (AudioStreamer.init 24000)
      [StreamerEv.add [0, 0] 0 (fun _ => 0)])).completions = 1
    rw [addPCM16_two_byte_run]
    rfl
  · show (AudioStreamer.complete (streamerRun (AudioStreamer.init 24000)
      [StreamerEv.add [0, 0] 0 (fun _ => 0)])).endedCount = 0
    rw [addPCM16_two_byte_run]
    rfl
  · show (AudioStreamer.endedHandler 0 (AudioStreamer.complete
      (streamerRun (AudioStreamer.init 24000)
        [StreamerEv.add [0, 0] 0 (fun _ => 0)]))).completions = 2
    rw [addPCM16_two_byte_run]
    rfl

/-- C2 (amended): the completion callback fires only at a `complete()` call
or at the `onended` of the registered end-of-queue source, and in either
case only when the stream has been marked complete and no blocks remain
queued.  (It can fire before the last scheduled block finishes playing —
`complete()` on a drained queue fires immediately — and can therefore fire
twice for one stream, as the counterexample shows.) -/
theorem audioStreamer_onComplete_only_when_drained (s : StreamerState) (e : StreamerEv)
    (h : s.completions < (streamerStep e s).completions) :
    (streamerStep e s).isStreamComplete = true ∧
    (streamerStep e s).audioQueue = [] ∧
    (e.isCompleteEv = true ∨ e.isEndedEv = true) := by
  cases e with
  | add chunk now clock =>
    exfalso
    have hcc : (streamerStep (StreamerEv.add chunk now clock) s).completions =
        s.completions := by
      show (AudioStreamer.addPCM16 chunk now clock s).completions = s.completions
      rw [AudioStreamer.addPCM16]
      split
      · rfl
      · exact (scheduleNextBuffer_ghost clock 0 _).1
    omega
  | schedule clock =>
    exfalso
    have hcc : (streamerStep (StreamerEv.schedule clock) s).completions = s.completions :=
      (scheduleNextBuffer_ghost clock 0 s).1
    omega
  | ended id =>
    show (AudioStreamer.endedHandler id s).isStreamComplete = true ∧
      (AudioStreamer.endedHandler id s).audioQueue = [] ∧ _
    have h' : s.completions < (AudioStreamer.endedHandler id s).completions := h
    rw [AudioStreamer.endedHandler] at h' ⊢
    by_cases hg : (s.audioQueue.isEmpty && s.endOfQueueSource == some id) = true
    · rw [if_pos hg] at h' ⊢
      by_cases hc : s.isStreamComplete = true
      · rw [if_pos hc] at h' ⊢
        refine ⟨hc, ?_, Or.inr rfl⟩
        exact List.isEmpty_iff.mp ((Bool.and_eq_true _ _).mp hg).1
      · rw [if_neg hc] at h'
        exfalso
        simp at h'
    · rw [if_neg hg] at h'
      exfalso
      simp at h'
  | complete =>
    show (AudioStreamer.complete s).isStreamComplete = true ∧
      (AudioStreamer.complete s).audioQueue = [] ∧ _
    have h' : s.completions < (AudioStreamer.complete s).completions := h
    rw [AudioStreamer.complete] at h' ⊢
    by_cases hq : s.audioQueue.isEmpty = true
    · rw [if_pos hq] at h' ⊢
      exact ⟨rfl, List.isEmpty_iff.mp hq, Or.inl rfl⟩
    · rw [if_neg hq] at h'
      exfalso
      simp at h'
  | setVolume v =>
    exfalso
    have hcc : (streamerStep (StreamerEv.setVolume v) s).completions = s.completions := rfl
    omega

/-- Witness for `audioStreamer_onComplete_only_when_drained`: `complete()`
on the drained one-chunk stream fires the callback, and indeed the stream
is marked complete there. -/
theorem audioStreamer_onComplete_only_when_drained_witness :
    (streamerRun (AudioStreamer.init 24000)
        [StreamerEv.add [0, 0] 0 (fun _ => 0)]).completions <
      (streamerStep StreamerEv.complete
        (streamerRun (AudioStreamer.init 24000)
          [StreamerEv.add [0, 0] 0 (fun _ => 0)])).completions ∧
    (streamerStep StreamerEv.complete
        (streamerRun (AudioStreamer.init 24000)
          [StreamerEv.add [0, 0] 0 (fun _ => 0)])).isStreamComplete = true := by
  have hlt : (streamerRun (AudioStreamer.init 24000)
      [StreamerEv.add [0, 0] 0 (fun _ => 0)]).completions <
      (streamerStep StreamerEv.complete
        (streamerRun (AudioStreamer.init 24000)
          [StreamerEv.add [0, 0] 0 (fun _ => 0)])).completions := by
    rw [addPCM16_two_byte_run]
    decide
  exact ⟨hlt, (audioStreamer_onComplete_only_when_drained _ _ hlt).1⟩

/-- C9: a chunk with an odd byte length (not sample-aligned) produces
exactly one decode-error report through `onError` (one per malformed
sample: the trailing half-sample), its `⌊n/2⌋` well-formed samples are all
converted and queued for playback (slicing loses no samples), and
`addPCM16` returns normally — the error is counted via the callback, never
raised: the queue is still extended and the whole-`addPCM16` error count
grows by exactly the one report. -/
theorem addPCM16_odd_chunk_spec (s : StreamerState) (chunk : List Nat)
    (hodd : chunk.length % 2 = 1) :
    (processPCM16Chunk chunk).2 = 1 ∧
    (processPCM16Chunk chunk).1.length = chunk.length / 2 ∧
    (AudioStreamer.addPCM16Push chunk s).errorCount = s.errorCount + 1 ∧
    (AudioStreamer.addPCM16Push chunk s).audioQueue =
      s.audioQueue ++ sliceBlocks (processPCM16Chunk chunk).1 ∧
    (sliceBlocks (processPCM16Chunk chunk).1).flatten = (processPCM16Chunk chunk).1 ∧
    (∀ (now : ℚ) (clock : Nat → ℚ),
      (AudioStreamer.addPCM16 chunk now clock s).errorCount = s.errorCount + 1) := by
  have he := processPCM16Chunk_err chunk
  rw [hodd] at he
  refine ⟨he, processPCM16Chunk_len chunk, ?_, rfl, sliceBlocks_flatten _, ?_⟩
  · show s.errorCount + (processPCM16Chunk chunk).2 = s.errorCount + 1
    rw [he]
  · intro now clock
    rw [AudioStreamer.addPCM16]
    split
    · show s.errorCount + (processPCM16Chunk chunk).2 = s.errorCount + 1
      rw [he]
    · rw [(scheduleNextBuffer_ghost clock 0 _).2.2.1]
      show s.errorCount + (processPCM16Chunk chunk).2 = s.errorCount + 1
      rw [he]

/-- Witness for `addPCM16_odd_chunk_spec`: the 3-byte chunk `[0, 0, 1]` on
a fresh streamer. -/
theorem addPCM16_odd_chunk_spec_witness :
    ([0, 0, 1] : List Nat).length % 2 = 1 ∧
    (processPCM16Chunk [0, 0, 1]).2 = 1 ∧
    (AudioStreamer.addPCM16Push [0, 0, 1] (AudioStreamer.init 24000)).errorCount = 0 + 1 := by
  refine ⟨by decide,
    (addPCM16_odd_chunk_spec (AudioStreamer.init 24000) [0, 0, 1] (by decide)).1, ?_⟩
  exact (addPCM16_odd_chunk_spec (AudioStreamer.init 24000) [0, 0, 1] (by decide)).2.2.1

/-- Model of `processQueue` never touches the volume state, the mute flag, the gain
node, the enqueue ghost order or the id counter. -/
theorem processQueue_frame (res : PlayResult) (s : PBState) :
    (processQueue res s).gain = s.gain ∧
    (processQueue res s).volume = s.volume ∧
    (processQueue res s).isMuted = s.isMuted ∧
    (processQueue res s).enqueuedOrder = s.enqueuedOrder ∧
    (processQueue res s).nextId = s.nextId ∧
    (processQueue res s).errorCount ≤ s.errorCount + 1 := by
  rw [processQueue]
  repeat' split
  all_goals refine ⟨rfl, rfl, rfl, rfl, rfl, ?_⟩
  all_goals simp
  all_goals omega

/-- Model of `processQueue` changes `isRecovering` only by setting it at the
`errorCount ≥ 5` check. -/
theorem processQueue_isRecovering (res : PlayResult) (s : PBState) :
    (processQueue res s).isRecovering = s.isRecovering ∨
      ((processQueue res s).isRecovering = true ∧ 5 ≤ s.errorCount) := by
  rw [processQueue]
  split
  · left
    rfl
  · split
    · rename_i h5
      right
      exact ⟨rfl, h5⟩
    · left
      repeat' split
      all_goals rfl

/-- C3 counterexample.  Three consecutive playback failures from a fresh
manager leave `errorCount = 3` with `isRecovering = false`, and the code's
`isHealthy` (`errorCount < 3 && !isRecovering`, source line 898) is already
false there — before the counter reaches 5 — while the claim's reading
(threshold 5, `isHealthyClaim`) would still call the state healthy. -/
theorem isHealthy_threshold_counterexample :
    (pbRun [PBEv.enq 10 "websocket" false (.failure .decode),
            PBEv.enq 10 "websocket" false (.failure .decode),
            PBEv.enq 10 "websocket" false (.failure .decode)]).errorCount = 3 ∧
    (pbRun [PBEv.enq 10 "websocket" false (.failure .decode),
            PBEv.enq 10 "websocket" false (.failure .decode),
            PBEv.enq 10 "websocket" false (.failure .decode)]).isRecovering = false ∧
    isHealthy 3 false = false ∧
    isHealthyClaim 3 false = true := by
  decide

/-- C3 (amended): each playback failure increments the error counter and
each success decrements it with floor 0; `isHealthy` is false whenever the
counter has reached 3 (the code's threshold — in particular at 5); once the
counter reaches 5, queue processing halts and `isRecovering` is set; and
`recover()` resets the counter to 0, clears `isRecovering` (making
`isHealthy` true) and schedules queue processing automatically when items
remain. -/
theorem playbackQueue_health_spec :
    (∀ (s : PBState) (et : AudioErrorType) (it : PBItem) (rest : List PBItem),
      s.isPlaying = false → s.queue = it :: rest → s.errorCount < 5 →
      (processQueue (.failure et) s).errorCount = s.errorCount + 1) ∧
    (∀ (s : PBState) (it : PBItem) (rest : List PBItem),
      s.isPlaying = false → s.queue = it :: rest → s.errorCount < 5 →
      (processQueue .success s).errorCount = s.errorCount - 1) ∧
    (∀ (s : PBState) (res : PlayResult),
      s.isPlaying = false → s.queue ≠ [] → 5 ≤ s.errorCount →
      processQueue res s = { s with isRecovering := true }) ∧
    (∀ (n : Nat) (r : Bool), 3 ≤ n → isHealthy n r = false) ∧
    (∀ s : PBState,
      (recoverFromErrors s).errorCount = 0 ∧
      (recoverFromErrors s).isRecovering = false ∧
      isHealthy (recoverFromErrors s).errorCount (recoverFromErrors s).isRecovering = true ∧
      (s.queue ≠ [] →
        (recoverFromErrors s).pendingDelays = s.pendingDelays ++ [500])) := by
  refine ⟨?_, ?_, ?_, ?_, ?_⟩
  · intro s et it rest hp hq hlt
    rw [processQueue]
    rw [if_neg (by simp [hp, hq])]
    rw [if_neg (by omega)]
    rw [hq]
    dsimp only
    repeat' split
    all_goals rfl
  · intro s it rest hp hq hlt
    rw [processQueue]
    rw [if_neg (by simp [hp, hq])]
    rw [if_neg (by omega)]
    rw [hq]
  · intro s res hp hq h5
    rw [processQueue]
    rw [if_neg (by simp [hp, hq])]
    rw [if_pos h5]
  · intro n r h3
    rw [isHealthy]
    rw [decide_eq_false (by omega)]
    rfl
  · intro s
    by_cases hq : s.queue.isEmpty = true
    · have hq' : s.queue = [] := List.isEmpty_iff.mp hq
      have hb : (recoverBegin s).queue.isEmpty = true := hq
      refine ⟨?_, ?_, ?_, fun hne => absurd hq' hne⟩
      · show (recoverFinish (recoverBegin s)).errorCount = 0
        rw [recoverFinish, if_pos hb]
        rfl
      · show (recoverFinish (recoverBegin s)).isRecovering = false
        rw [recoverFinish, if_pos hb]
        rfl
      · show isHealthy (recoverFinish (recoverBegin s)).errorCount
          (recoverFinish (recoverBegin s)).isRecovering = true
        rw [recoverFinish, if_pos hb]
        rfl
    · have hb : ¬(recoverBegin s).queue.isEmpty = true := hq
      refine ⟨?_, ?_, ?_, ?_⟩
      · show (recoverFinish (recoverBegin s)).errorCount = 0
        rw [recoverFinish, if_neg hb]
        rfl
      · show (recoverFinish (recoverBegin s)).isRecovering = false
        rw [recoverFinish, if_neg hb]
        rfl
      · show isHealthy (recoverFinish (recoverBegin s)).errorCount
          (recoverFinish (recoverBegin s)).isRecovering = true
        rw [recoverFinish, if_neg hb]
        rfl
      · intro _
        show (recoverFinish (recoverBegin s)).pendingDelays = s.pendingDelays ++ [500]
        rw [recoverFinish, if_neg hb]
        rfl

/-- Witness for `playbackQueue_health_spec`, at the state reached by one
enqueue whose playback fails with a context error (the item is back at the
head with `retryCount = 1`, nothing playing, `errorCount = 1`). -/
theorem playbackQueue_health_spec_witness :
    ((pbRun [PBEv.enq 10 "websocket" false (.failure .context)]).isPlaying = false ∧
      (pbRun [PBEv.enq 10 "websocket" false (.failure .context)]).queue =
        ⟨0, 10, "websocket", false, 1⟩ :: [] ∧
      (pbRun [PBEv.enq 10 "websocket" false (.failure .context)]).errorCount < 5 ∧
      (processQueue (.failure .decode)
        (pbRun [PBEv.enq 10 "websocket" false (.failure .context)])).errorCount =
        (pbRun [PBEv.enq 10 "websocket" false (.failure .context)]).errorCount + 1) ∧
    ((pbRun [PBEv.enq 10 "websocket" false (.failure .context)]).queue ≠ [] ∧
      (recoverFromErrors (pbRun [PBEv.enq 10 "websocket" false (.failure .context)])).pendingDelays =
        (pbRun [PBEv.enq 10 "websocket" false (.failure .context)]).pendingDelays ++ [500]) := by
  refine ⟨⟨by decide, by decide, by decide, ?_⟩, by decide, ?_⟩
  · exact playbackQueue_health_spec.1 _ .decode ⟨0, 10, "websocket", false, 1⟩ []
      (by decide) (by decide) (by decide)
  · exact (playbackQueue_health_spec.2.2.2.2 _).2.2.2 (by decide)

/-- C8 counterexample, refuting both halves of the claim.  (1) Five
consecutive failures raise the counter to 5; a sixth enqueue's inline
`processQueue` then crosses the threshold (`isRecovering = true`), and
`clearQueue` — not the recovery action — calls `clearErrors` and thereby
clears `isRecovering`: it is not "cleared only by the explicit recovery
action".  (2) Entering `recoverFromErrors` on a fresh manager sets
`isRecovering = true` unconditionally (line 1290, observable at the await)
with `errorCount = 0`: it is not set only by crossing the failure
threshold. -/
theorem isRecovering_claim_counterexample :
    (pbRun [PBEv.enq 10 "websocket" false (.failure .decode),
            PBEv.enq 10 "websocket" false (.failure .decode),
            PBEv.enq 10 "websocket" false (.failure .decode),
            PBEv.enq 10 "websocket" false (.failure .decode),
            PBEv.enq 10 "websocket" false (.failure .decode),
            PBEv.enq 10 "websocket" false PlayResult.success]).isRecovering = true ∧
    (pbStep PBEv.clear
      (pbRun [PBEv.enq 10 "websocket" false (.failure .decode),
              PBEv.enq 10 "websocket" false (.failure .decode),
              PBEv.enq 10 "websocket" false (.failure .decode),
              PBEv.enq 10 "websocket" false (.failure .decode),
              PBEv.enq 10 "websocket" false (.failure .decode),
              PBEv.enq 10 "websocket" false PlayResult.success])).isRecovering = false ∧
    (pbInit.errorCount = 0 ∧ (pbStep PBEv.recoverBegin pbInit).isRecovering = true) := by
  decide

/-- C8 (amended): a step can turn `isRecovering` on only from
`errorCount ≥ 5` (the queue processor's threshold check) or by being the
entry of the explicit recovery action, which sets the flag unconditionally
before its first await; and it is cleared only by `clearErrors`, which the
recovery action's continuation and `clearQueue` invoke: a step that turns
it off is `clear` or `recoverFinish`. -/
theorem isRecovering_transitions (s : PBState) (e : PBEv) :
    (s.isRecovering = false → (pbStep e s).isRecovering = true →
      5 ≤ s.errorCount ∨ e = PBEv.recoverBegin) ∧
    (s.isRecovering = true → (pbStep e s).isRecovering = false →
      e = PBEv.clear ∨ e = PBEv.recoverFinish) := by
  cases e with
  | enq size src sm res =>
    constructor
    · intro h0 h1
      rw [pbStep, enqueueAudio] at h1
      by_cases hz : size = 0
      · rw [if_pos hz] at h1
        rw [h0] at h1
        cases h1
      · rw [if_neg hz] at h1
        split at h1
        · rcases processQueue_isRecovering res (enqueuePush size src sm s)
            with hsame | ⟨_, h5⟩
          · rw [hsame] at h1
            rw [show (enqueuePush size src sm s).isRecovering = s.isRecovering from rfl] at h1
            rw [h0] at h1
            cases h1
          · exact Or.inl h5
        · rw [show (enqueuePush size src sm s).isRecovering = s.isRecovering from rfl] at h1
          rw [h0] at h1
          cases h1
    · intro h0 h1
      exfalso
      rw [pbStep, enqueueAudio] at h1
      by_cases hz : size = 0
      · rw [if_pos hz] at h1
        rw [h0] at h1
        cases h1
      · rw [if_neg hz] at h1
        rw [if_neg (by simp [enqueuePush, h0])] at h1
        rw [show (enqueuePush size src sm s).isRecovering = s.isRecovering from rfl] at h1
        rw [h0] at h1
        cases h1
  | tick res =>
    constructor
    · intro h0 h1
      rcases processQueue_isRecovering res { s with pendingDelays := s.pendingDelays.tail }
        with hsame | ⟨_, h5⟩
      · rw [pbStep] at h1
        rw [hsame] at h1
        rw [h0] at h1
        cases h1
      · exact Or.inl h5
    · intro h0 h1
      exfalso
      rcases processQueue_isRecovering res { s with pendingDelays := s.pendingDelays.tail }
        with hsame | ⟨hset, _⟩
      · rw [pbStep] at h1
        rw [hsame] at h1
        rw [h0] at h1
        cases h1
      · rw [pbStep] at h1
        rw [hset] at h1
        cases h1
  | ended =>
    constructor
    · intro h0 h1
      rw [pbStep, playbackEnded] at h1
      rw [h0] at h1
      cases h1
    · intro h0 h1
      exfalso
      rw [pbStep, playbackEnded] at h1
      rw [h0] at h1
      cases h1
  | clear =>
    constructor
    · intro h0 h1
      rw [pbStep] at h1
      cases h1
    · intro _ _
      exact Or.inl rfl
  | recoverBegin =>
    constructor
    · intro _ _
      exact Or.inr rfl
    · intro h0 h1
      exfalso
      have h1' : true = false := h1
      cases h1'
  | recoverFinish =>
    constructor
    · intro h0 h1
      exfalso
      rw [pbStep, recoverFinish] at h1
      by_cases hqe : s.queue.isEmpty = true
      · rw [if_pos hqe] at h1
        cases h1
      · rw [if_neg hqe] at h1
        cases h1
    · intro _ _
      exact Or.inr rfl
  | pause =>
    constructor
    · intro h0 h1
      rw [pbStep, pauseQueue, stopPlayback] at h1
      rw [h0] at h1
      cases h1
    · intro h0 h1
      exfalso
      rw [pbStep, pauseQueue, stopPlayback] at h1
      rw [h0] at h1
      cases h1
  | resume res =>
    constructor
    · intro h0 h1
      rw [pbStep, resumeQueue] at h1
      split at h1
      · rcases processQueue_isRecovering res s with hsame | ⟨_, h5⟩
        · rw [hsame] at h1
          rw [h0] at h1
          cases h1
        · exact Or.inl h5
      · rw [h0] at h1
        cases h1
    · intro h0 h1
      exfalso
      rw [pbStep, resumeQueue] at h1
      rw [if_neg (by simp [h0])] at h1
      rw [h0] at h1
      cases h1
  | stop =>
    constructor
    · intro h0 h1
      rw [pbStep, stopPlayback] at h1
      rw [h0] at h1
      cases h1
    · intro h0 h1
      exfalso
      rw [pbStep, stopPlayback] at h1
      rw [h0] at h1
      cases h1
  | setVol v =>
    constructor
    · intro h0 h1
      exfalso
      rw [pbStep, setVolume] at h1
      split at h1
      · rw [h0] at h1
        cases h1
      · rw [h0] at h1
        cases h1
    · intro h0 h1
      exfalso
      rw [pbStep, setVolume] at h1
      split at h1
      · rw [h0] at h1
        cases h1
      · rw [h0] at h1
        cases h1
  | mute =>
    constructor
    · intro h0 h1
      rw [pbStep, toggleMute] at h1
      rw [h0] at h1
      cases h1
    · intro h0 h1
      exfalso
      rw [pbStep, toggleMute] at h1
      rw [h0] at h1
      cases h1

/-- Witness for `isRecovering_transitions`: the sixth enqueue after five
failures turns `isRecovering` on — and indeed starts from `errorCount ≥ 5`
or is the recovery entry — and `clear` turns it off from the recovering
state. -/
theorem isRecovering_transitions_witness :
    ((pbRun [PBEv.enq 10 "websocket" false (.failure .decode),
             PBEv.enq 10 "websocket" false (.failure .decode),
             PBEv.enq 10 "websocket" false (.failure .decode),
             PBEv.enq 10 "websocket" false (.failure .decode),
             PBEv.enq 10 "websocket" false (.failure .decode)]).isRecovering = false ∧
      (5 ≤ (pbRun [PBEv.enq 10 "websocket" false (.failure .decode),
                   PBEv.enq 10 "websocket" false (.failure .decode),
                   PBEv.enq 10 "websocket" false (.failure .decode),
                   PBEv.enq 10 "websocket" false (.failure .decode),
                   PBEv.enq 10 "websocket" false (.failure .decode)]).errorCount ∨
        PBEv.enq 10 "websocket" false PlayResult.success = PBEv.recoverBegin)) ∧
    (PBEv.clear = PBEv.clear ∨ PBEv.clear = PBEv.recoverFinish) := by
  refine ⟨⟨by decide, ?_⟩, ?_⟩
  · exact (isRecovering_transitions
      (pbRun [PBEv.enq 10 "websocket" false (.failure .decode),
              PBEv.enq 10 "websocket" false (.failure .decode),
              PBEv.enq 10 "websocket" false (.failure .decode),
              PBEv.enq 10 "websocket" false (.failure .decode),
              PBEv.enq 10 "websocket" false (.failure .decode)])
      (PBEv.enq 10 "websocket" false PlayResult.success)).1 (by decide) (by decide)
  · exact (isRecovering_transitions
      (pbRun [PBEv.enq 10 "websocket" false (.failure .decode),
              PBEv.enq 10 "websocket" false (.failure .decode),
              PBEv.enq 10 "websocket" false (.failure .decode),
              PBEv.enq 10 "websocket" false (.failure .decode),
              PBEv.enq 10 "websocket" false (.failure .decode),
              PBEv.enq 10 "websocket" false PlayResult.success])
      PBEv.clear).2 (by decide) (by decide)

theorem processQueue_retryInv (res : PlayResult) (s : PBState) (h : RetryInv s) :
    RetryInv (processQueue res s) := by
  obtain ⟨hq, hc⟩ := h
  rw [processQueue]
  split
  · exact ⟨hq, hc⟩
  split
  · exact ⟨hq, hc⟩
  split
  · exact ⟨hq, hc⟩
  rename_i it rest heq
  have hit : RetryOk it := hq it (by rw [heq]; exact List.mem_cons_self it rest)
  have hrest : ∀ x ∈ rest, RetryOk x := fun x hx =>
    hq x (by rw [heq]; exact List.mem_cons_of_mem _ hx)
  split
  · refine ⟨hrest, ?_⟩
    intro x hx
    have hx' : some it = some x := hx
    cases hx'
    exact hit
  · rename_i et
    split
    · refine ⟨hrest, ?_⟩
      intro x hx
      have hx' : (none : Option PBItem) = some x := hx
      cases hx'
    · split
      · split
        · refine ⟨hrest, ?_⟩
          intro x hx
          have hx' : (none : Option PBItem) = some x := hx
          cases hx'
        · rename_i hcond hstream
          have hrc : it.retryCount < 2 := by
            have := (Bool.and_eq_true _ _).mp hcond
            exact of_decide_eq_true this.2
          refine ⟨?_, ?_⟩
          · intro x hx
            rcases List.mem_cons.mp hx with rfl | hx'
            · refine ⟨show it.retryCount + 1 ≤ 2 by omega, ?_⟩
              intro hstream'
              have : it.isStreamingChunk = true := hstream'
              rw [this] at hstream
              exact absurd rfl hstream
            · exact hrest x hx'
          · intro x hx
            have hx' : (none : Option PBItem) = some x := hx
            cases hx'
      · refine ⟨hrest, ?_⟩
        intro x hx
        have hx' : (none : Option PBItem) = some x := hx
        cases hx'

theorem pbStep_retryInv (e : PBEv) (s : PBState) (h : RetryInv s) :
    RetryInv (pbStep e s) := by
  obtain ⟨hq, hc⟩ := h
  cases e with
  | enq size src sm res =>
    rw [pbStep, enqueueAudio]
    have hpush : RetryInv (enqueuePush size src sm s) := by
      refine ⟨?_, hc⟩
      intro it hit
      have hit' : it ∈ s.queue ++ [(⟨s.nextId, size, src, sm, 0⟩ : PBItem)] := hit
      rcases List.mem_append.mp hit' with hmem | hmem
      · exact hq it hmem
      · rw [List.mem_singleton] at hmem
        subst hmem
        exact ⟨show (0 : Nat) ≤ 2 by omega, fun _ => rfl⟩
    split
    · exact ⟨hq, hc⟩
    split
    · exact processQueue_retryInv res _ hpush
    · exact hpush
  | tick res => exact processQueue_retryInv res _ ⟨hq, hc⟩
  | ended =>
    refine ⟨hq, ?_⟩
    intro x hx
    have hx' : (none : Option PBItem) = some x := hx
    cases hx'
  | clear =>
    refine ⟨?_, hc⟩
    intro it hit
    have hit' : it ∈ ([] : List PBItem) := hit
    cases hit'
  | recoverBegin =>
    refine ⟨hq, ?_⟩
    intro x hx
    have hx' : (none : Option PBItem) = some x := hx
    cases hx'
  | recoverFinish =>
    rw [pbStep, recoverFinish]
    split
    · exact ⟨hq, hc⟩
    · exact ⟨hq, hc⟩
  | pause =>
    refine ⟨hq, ?_⟩
    intro x hx
    have hx' : (none : Option PBItem) = some x := hx
    cases hx'
  | resume res =>
    rw [pbStep, resumeQueue]
    split
    · exact processQueue_retryInv res _ ⟨hq, hc⟩
    · exact ⟨hq, hc⟩
  | stop =>
    refine ⟨hq, ?_⟩
    intro x hx
    have hx' : (none : Option PBItem) = some x := hx
    cases hx'
  | setVol v =>
    rw [pbStep, setVolume]
    split
    · exact ⟨hq, hc⟩
    · exact ⟨hq, hc⟩
  | mute => exact ⟨hq, hc⟩

theorem pbRunFrom_retryInv : ∀ (evs : List PBEv) (s : PBState),
    RetryInv s → RetryInv (pbRunFrom s evs)
  | [], _, h => h
  | e :: es, s, h => pbRunFrom_retryInv es _ (pbStep_retryInv e s h)

theorem pbInit_retryInv : RetryInv pbInit := by
  constructor
  · intro it hit
    have hit' : it ∈ ([] : List PBItem) := hit
    cases hit'
  · intro x hx
    have hx' : (none : Option PBItem) = some x := hx
    cases hx'

/-- Model of `shouldRetryItem` and `shouldSkipItem` never both hold. -/
theorem shouldRetry_not_skip (et : AudioErrorType) (h : shouldRetryItem et = true) :
    shouldSkipItem et = false := by
  cases et <;> simp_all [shouldRetryItem, shouldSkipItem]

/-- C4: in every reachable state, every queued item carries at most 2
retries, and streaming-tagged items carry none (they are never retried);
moreover one failing step behaves as claimed: a `ContextError`/
`PlaybackError` failure of a non-streaming item with fewer than 2 retries
re-queues that same item at the front with its retry count incremented and
a 1000ms backoff; the same failure of a streaming item skips it (100ms
follow-up, no re-queue); and after 2 retries the item is given up (500ms
follow-up, no re-queue). -/
theorem playbackQueue_retry_spec :
    (∀ (evs : List PBEv) (it : PBItem), it ∈ (pbRun evs).queue →
      it.retryCount ≤ 2 ∧ (it.isStreamingChunk = true → it.retryCount = 0)) ∧
    (∀ (s : PBState) (et : AudioErrorType) (it : PBItem) (rest : List PBItem),
      s.isPlaying = false → s.queue = it :: rest → s.errorCount < 5 →
      shouldRetryItem et = true → it.retryCount < 2 → it.isStreamingChunk = false →
      (processQueue (.failure et) s).queue =
        { it with retryCount := it.retryCount + 1 } :: rest ∧
      (processQueue (.failure et) s).pendingDelays = s.pendingDelays ++ [1000]) ∧
    (∀ (s : PBState) (et : AudioErrorType) (it : PBItem) (rest : List PBItem),
      s.isPlaying = false → s.queue = it :: rest → s.errorCount < 5 →
      shouldRetryItem et = true → it.retryCount < 2 → it.isStreamingChunk = true →
      (processQueue (.failure et) s).queue = rest ∧
      (processQueue (.failure et) s).pendingDelays = s.pendingDelays ++ [100]) ∧
    (∀ (s : PBState) (et : AudioErrorType) (it : PBItem) (rest : List PBItem),
      s.isPlaying = false → s.queue = it :: rest → s.errorCount < 5 →
      shouldRetryItem et = true → 2 ≤ it.retryCount →
      (processQueue (.failure et) s).queue = rest ∧
      (processQueue (.failure et) s).pendingDelays = s.pendingDelays ++ [500]) := by
  refine ⟨?_, ?_, ?_, ?_⟩
  · intro evs it hit
    exact (pbRunFrom_retryInv evs pbInit pbInit_retryInv).1 it hit
  · intro s et it rest hp hq hlt hret hrc hstream
    rw [processQueue]
    rw [if_neg (by simp [hp, hq])]
    rw [if_neg (by omega)]
    rw [hq]
    dsimp only
    rw [if_neg (by rw [shouldRetry_not_skip et hret]; exact Bool.false_ne_true)]
    rw [if_pos (by rw [hret, decide_eq_true hrc]; rfl)]
    rw [if_neg (by rw [hstream]; exact Bool.false_ne_true)]
    exact ⟨rfl, rfl⟩
  · intro s et it rest hp hq hlt hret hrc hstream
    rw [processQueue]
    rw [if_neg (by simp [hp, hq])]
    rw [if_neg (by omega)]
    rw [hq]
    dsimp only
    rw [if_neg (by rw [shouldRetry_not_skip et hret]; exact Bool.false_ne_true)]
    rw [if_pos (by rw [hret, decide_eq_true hrc]; rfl)]
    rw [if_pos hstream]
    exact ⟨rfl, rfl⟩
  · intro s et it rest hp hq hlt hret hrc
    rw [processQueue]
    rw [if_neg (by simp [hp, hq])]
    rw [if_neg (by omega)]
    rw [hq]
    dsimp only
    rw [if_neg (by rw [shouldRetry_not_skip et hret]; exact Bool.false_ne_true)]
    rw [if_neg (by rw [hret, decide_eq_false (by omega)]; exact Bool.false_ne_true)]
    exact ⟨rfl, rfl⟩

/-- Witness for `playbackQueue_retry_spec`: the retried item after one
context failure sits in the queue with `retryCount = 1 ≤ 2`, and a second
context failure of that state re-queues it with `retryCount = 2` and a
1000ms backoff. -/
theorem playbackQueue_retry_spec_witness :
    ((⟨0, 10, "websocket", false, 1⟩ : PBItem) ∈
        (pbRun [PBEv.enq 10 "websocket" false (.failure .context)]).queue ∧
      (⟨0, 10, "websocket", false, 1⟩ : PBItem).retryCount ≤ 2) ∧
    ((pbRun [PBEv.enq 10 "websocket" false (.failure .context)]).isPlaying = false ∧
      shouldRetryItem .context = true ∧
      (processQueue (.failure .context)
          (pbRun [PBEv.enq 10 "websocket" false (.failure .context)])).queue =
        ⟨0, 10, "websocket", false, 2⟩ :: [] ∧
      (processQueue (.failure .context)
          (pbRun [PBEv.enq 10 "websocket" false (.failure .context)])).pendingDelays =
        (pbRun [PBEv.enq 10 "websocket" false (.failure .context)]).pendingDelays ++ [1000]) := by
  refine ⟨⟨by decide, ?_⟩, by decide, by decide, ?_⟩
  · exact (playbackQueue_retry_spec.1 [PBEv.enq 10 "websocket" false (.failure .context)]
      ⟨0, 10, "websocket", false, 1⟩ (by decide)).1
  · exact playbackQueue_retry_spec.2.1 _ .context ⟨0, 10, "websocket", false, 1⟩ []
      (by decide) (by decide) (by decide) (by decide) (by decide) (by decide)

theorem processQueue_success_fifoInv (s : PBState) (h : FifoInv s) :
    FifoInv (processQueue .success s) := by
  obtain ⟨h1, h2⟩ := h
  rw [processQueue]
  split
  · exact ⟨h1, h2⟩
  split
  · exact ⟨h1, h2⟩
  split
  · exact ⟨h1, h2⟩
  rename_i it rest heq
  constructor
  · show s.enqueuedOrder = (s.playedOrder ++ [it.id]) ++ rest.map PBItem.id
    rw [h1, heq]
    simp
  · show rest.length = rest.length
    rfl

theorem pbStep_fifoInv (e : PBEv) (s : PBState) (hsafe : e.fifoSafe = true)
    (h : FifoInv s) : FifoInv (pbStep e s) := by
  obtain ⟨h1, h2⟩ := h
  cases e with
  | enq size src sm res =>
    have hres : res = PlayResult.success := by
      have : (res == PlayResult.success) = true := hsafe
      exact eq_of_beq this
    subst hres
    rw [pbStep, enqueueAudio]
    have hpush : FifoInv (enqueuePush size src sm s) := by
      constructor
      · show s.enqueuedOrder ++ [s.nextId] =
          s.playedOrder ++ (s.queue ++ [(⟨s.nextId, size, src, sm, 0⟩ : PBItem)]).map PBItem.id
        rw [h1]
        simp
      · show (s.queue ++ ([⟨s.nextId, size, src, sm, 0⟩] : List PBItem)).length =
          (s.queue ++ [(⟨s.nextId, size, src, sm, 0⟩ : PBItem)]).length
        rfl
    split
    · exact ⟨h1, h2⟩
    split
    · exact processQueue_success_fifoInv _ hpush
    · exact hpush
  | tick res =>
    have hres : res = PlayResult.success := by
      have : (res == PlayResult.success) = true := hsafe
      exact eq_of_beq this
    subst hres
    exact processQueue_success_fifoInv _ ⟨h1, h2⟩
  | ended => exact ⟨h1, h2⟩
  | clear => cases hsafe
  | recoverBegin => exact ⟨h1, h2⟩
  | recoverFinish =>
    rw [pbStep, recoverFinish]
    split
    · exact ⟨h1, h2⟩
    · exact ⟨h1, h2⟩
  | pause => exact ⟨h1, h2⟩
  | resume res =>
    have hres : res = PlayResult.success := by
      have : (res == PlayResult.success) = true := hsafe
      exact eq_of_beq this
    subst hres
    rw [pbStep, resumeQueue]
    split
    · exact processQueue_success_fifoInv _ ⟨h1, h2⟩
    · exact ⟨h1, h2⟩
  | stop => exact ⟨h1, h2⟩
  | setVol v =>
    rw [pbStep, setVolume]
    split
    · exact ⟨h1, h2⟩
    · exact ⟨h1, h2⟩
  | mute => exact ⟨h1, h2⟩

theorem pbRunFrom_fifoInv : ∀ (evs : List PBEv) (s : PBState),
    (∀ e ∈ evs, e.fifoSafe = true) → FifoInv s → FifoInv (pbRunFrom s evs)
  | [], _, _, h => h
  | e :: es, s, hall, h =>
    pbRunFrom_fifoInv es _ (fun x hx => hall x (List.mem_cons_of_mem _ hx))
      (pbStep_fifoInv e s (hall e (List.mem_cons_self e es)) h)

/-- C5: the playback queue is single-flight and FIFO.  (1) `processQueue`
is a no-op while something is playing — at most one item plays at a time;
(2) an enqueue while idle (not playing, not recovering, healthy counter)
immediately dequeues and starts the new item; (3) in any failure-free run
without clears, the enqueue order equals the playback-start order followed
by the ids still waiting — items play strictly in enqueue order — and
`queueLength` always equals the number of queued items; (4) taking an item
for playback decrements `queueLength` by exactly 1. -/
theorem playbackQueue_fifo_spec :
    (∀ (res : PlayResult) (s : PBState), s.isPlaying = true → processQueue res s = s) ∧
    (∀ (s : PBState) (size : Nat) (src : String) (sm : Bool),
      s.isPlaying = false → s.isRecovering = false → s.queue = [] → s.errorCount < 5 →
      size ≠ 0 →
      (enqueueAudio size src sm .success s).isPlaying = true ∧
      (enqueueAudio size src sm .success s).currentItem =
        some ⟨s.nextId, size, src, sm, 0⟩ ∧
      (enqueueAudio size src sm .success s).playedOrder = s.playedOrder ++ [s.nextId] ∧
      (enqueueAudio size src sm .success s).queueLength = 0) ∧
    (∀ evs : List PBEv, (∀ e ∈ evs, e.fifoSafe = true) →
      (pbRun evs).enqueuedOrder =
        (pbRun evs).playedOrder ++ (pbRun evs).queue.map PBItem.id ∧
      (pbRun evs).queueLength = (pbRun evs).queue.length) ∧
    (∀ (s : PBState) (it : PBItem) (rest : List PBItem),
      s.isPlaying = false → s.queue = it :: rest → s.errorCount < 5 →
      s.queueLength = s.queue.length →
      (processQueue .success s).queueLength = s.queueLength - 1) := by
  refine ⟨?_, ?_, ?_, ?_⟩
  · intro res s hp
    rw [processQueue]
    rw [if_pos (by rw [hp]; rfl)]
  · intro s size src sm hp hr hq h5 hsz
    rw [enqueueAudio]
    rw [if_neg hsz]
    have hpq : (enqueuePush size src sm s).queue = [⟨s.nextId, size, src, sm, 0⟩] := by
      show s.queue ++ [(⟨s.nextId, size, src, sm, 0⟩ : PBItem)] = _
      rw [hq]
      rfl
    have hpp : (enqueuePush size src sm s).isPlaying = false := hp
    have hpr : (enqueuePush size src sm s).isRecovering = false := hr
    rw [if_pos (by rw [hpp, hpr]; rfl)]
    rw [processQueue]
    rw [if_neg (by rw [hpp, hpq]; simp)]
    rw [if_neg (by show ¬5 ≤ s.errorCount; omega)]
    rw [hpq]
    dsimp only
    exact ⟨rfl, rfl, rfl, rfl⟩
  · intro evs hall
    have hinit : FifoInv pbInit := ⟨rfl, rfl⟩
    exact pbRunFrom_fifoInv evs pbInit hall hinit
  · intro s it rest hp hq h5 hlen
    rw [processQueue]
    rw [if_neg (by simp [hp, hq])]
    rw [if_neg (by omega)]
    rw [hq]
    dsimp only
    show rest.length = s.queueLength - 1
    rw [hlen, hq]
    simp

/-- Witness for `playbackQueue_fifo_spec`: a busy state ignores
`processQueue`; a fresh idle enqueue starts immediately; the two-enqueue
failure-free trace keeps enqueue order = play order ++ queue, and the
dequeue of a successful attempt decrements `queueLength` by 1. -/
theorem playbackQueue_fifo_spec_witness :
    (processQueue PlayResult.success
        (pbRun [PBEv.enq 10 "websocket" false PlayResult.success]) =
      pbRun [PBEv.enq 10 "websocket" false PlayResult.success]) ∧
    ((enqueueAudio 10 "websocket" false .success pbInit).isPlaying = true ∧
      (enqueueAudio 10 "websocket" false .success pbInit).playedOrder = [] ++ [0]) ∧
    ((pbRun [PBEv.enq 100 "websocket" false PlayResult.success,
             PBEv.enq 200 "websocket" false PlayResult.success]).enqueuedOrder =
      (pbRun [PBEv.enq 100 "websocket" false PlayResult.success,
              PBEv.enq 200 "websocket" false PlayResult.success]).playedOrder ++
        (pbRun [PBEv.enq 100 "websocket" false PlayResult.success,
                PBEv.enq 200 "websocket" false PlayResult.success]).queue.map PBItem.id) := by
  refine ⟨?_, ?_, ?_⟩
  · exact playbackQueue_fifo_spec.1 PlayResult.success
      (pbRun [PBEv.enq 10 "websocket" false PlayResult.success]) (by decide)
  · refine ⟨(playbackQueue_fifo_spec.2.1 pbInit 10 "websocket" false
      (by decide) (by decide) (by decide) (by decide) (by decide)).1, ?_⟩
    exact (playbackQueue_fifo_spec.2.1 pbInit 10 "websocket" false
      (by decide) (by decide) (by decide) (by decide) (by decide)).2.2.1
  · refine (playbackQueue_fifo_spec.2.2.1
      [PBEv.enq 100 "websocket" false PlayResult.success,
       PBEv.enq 200 "websocket" false PlayResult.success] ?_).1
    intro e he
    rcases List.mem_cons.mp he with rfl | he
    · rfl
    · rcases List.mem_cons.mp he with rfl | he
      · rfl
      · cases he

/-- Arithmetic of the clamp `Math.max(0, Math.min(1, v))`. -/
theorem clamp01_spec (v : ℚ) :
    0 ≤ max 0 (min 1 v) ∧ max 0 (min 1 v) ≤ 1 ∧
    (v ≤ 0 → max 0 (min 1 v) = 0) ∧ (1 ≤ v → max 0 (min 1 v) = 1) ∧
    (0 ≤ v → v ≤ 1 → max 0 (min 1 v) = v) := by
  refine ⟨le_max_left _ _, ?_, ?_, ?_, ?_⟩
  · apply max_le
    · norm_num
    · exact min_le_left _ _
  · intro h
    rw [min_eq_right (by linarith)]
    exact max_eq_left h
  · intro h
    rw [min_eq_left h]
    apply max_eq_right
    norm_num
  · intro h0 h1
    rw [min_eq_right h1]
    exact max_eq_right h0

theorem pbStep_volInv (e : PBEv) (s : PBState) (h : VolInv s) : VolInv (pbStep e s) := by
  obtain ⟨h1, h2, h3, h4⟩ := h
  have hframe : ∀ (res : PlayResult) (t : PBState),
      VolInv t → VolInv (processQueue res t) := by
    intro res t ht
    have hf := processQueue_frame res t
    exact ⟨hf.1 ▸ ht.1, hf.1 ▸ ht.2.1, hf.2.1 ▸ ht.2.2.1, hf.2.1 ▸ ht.2.2.2⟩
  cases e with
  | enq size src sm res =>
    rw [pbStep, enqueueAudio]
    split
    · exact ⟨h1, h2, h3, h4⟩
    split
    · exact hframe res _ ⟨h1, h2, h3, h4⟩
    · exact ⟨h1, h2, h3, h4⟩
  | tick res => exact hframe res _ ⟨h1, h2, h3, h4⟩
  | ended => exact ⟨h1, h2, h3, h4⟩
  | clear => exact ⟨h1, h2, h3, h4⟩
  | recoverBegin => exact ⟨h1, h2, h3, h4⟩
  | recoverFinish =>
    rw [pbStep, recoverFinish]
    have hg : (0 : ℚ) ≤ (if s.isMuted then 0 else s.volume) ∧
        (if s.isMuted then 0 else s.volume) ≤ 1 := by
      split
      · norm_num
      · exact ⟨h3, h4⟩
    split
    · exact ⟨hg.1, hg.2, h3, h4⟩
    · exact ⟨hg.1, hg.2, h3, h4⟩
  | pause => exact ⟨h1, h2, h3, h4⟩
  | resume res =>
    rw [pbStep, resumeQueue]
    split
    · exact hframe res _ ⟨h1, h2, h3, h4⟩
    · exact ⟨h1, h2, h3, h4⟩
  | stop => exact ⟨h1, h2, h3, h4⟩
  | setVol v =>
    have hc := clamp01_spec v
    rw [pbStep, setVolume]
    split
    · exact ⟨h1, h2, hc.1, hc.2.1⟩
    · exact ⟨hc.1, hc.2.1, hc.1, hc.2.1⟩
  | mute =>
    rw [pbStep, toggleMute]
    have hg : (0 : ℚ) ≤ (if !s.isMuted then 0 else s.volume) ∧
        (if !s.isMuted then 0 else s.volume) ≤ 1 := by
      split
      · norm_num
      · exact ⟨h3, h4⟩
    exact ⟨hg.1, hg.2, h3, h4⟩

theorem pbRunFrom_volInv : ∀ (evs : List PBEv) (s : PBState),
    VolInv s → VolInv (pbRunFrom s evs)
  | [], _, h => h
  | e :: es, s, h => pbRunFrom_volInv es _ (pbStep_volInv e s h)

/-- C10: `setVolume` clamps its input to [0,1] on both playback paths.  On
the streaming path (`AudioStreamer.setVolume`) the output gain node is set
to exactly `max(0, min(1, v))`: out-of-range inputs are silently clamped,
in-range inputs applied verbatim, and the node value is always within
[0,1].  On the queue path (`useAudioPlayback.setVolume`) the stored volume
is the same clamp and the gain node receives it whenever not muted (while
muted the node keeps its previous value, 0); in every reachable manager
state both the gain node value and the stored volume lie within [0,1]. -/
theorem setVolume_clamp_spec :
    (∀ (s : StreamerState) (v : ℚ),
      0 ≤ (AudioStreamer.setVolume v s).gain ∧ (AudioStreamer.setVolume v s).gain ≤ 1 ∧
      (v ≤ 0 → (AudioStreamer.setVolume v s).gain = 0) ∧
      (1 ≤ v → (AudioStreamer.setVolume v s).gain = 1) ∧
      (0 ≤ v → v ≤ 1 → (AudioStreamer.setVolume v s).gain = v)) ∧
    (∀ (s : PBState) (v : ℚ),
      (setVolume v s).volume = max 0 (min 1 v) ∧
      (s.isMuted = false → (setVolume v s).gain = max 0 (min 1 v)) ∧
      (s.isMuted = true → (setVolume v s).gain = s.gain)) ∧
    (∀ evs : List PBEv,
      0 ≤ (pbRun evs).gain ∧ (pbRun evs).gain ≤ 1 ∧
      0 ≤ (pbRun evs).volume ∧ (pbRun evs).volume ≤ 1) := by
  refine ⟨?_, ?_, ?_⟩
  · intro s v
    have hc := clamp01_spec v
    exact ⟨hc.1, hc.2.1, hc.2.2.1, hc.2.2.2.1, hc.2.2.2.2⟩
  · intro s v
    rw [setVolume]
    by_cases hm : s.isMuted = true
    · rw [if_pos hm]
      refine ⟨rfl, ?_, fun _ => rfl⟩
      intro hm'
      rw [hm] at hm'
      cases hm'
    · rw [if_neg hm]
      refine ⟨rfl, fun _ => rfl, ?_⟩
      intro hm'
      exact absurd hm' hm
  · intro evs
    have h0 : VolInv pbInit := by
      refine ⟨?_, ?_, ?_, ?_⟩ <;> norm_num [pbInit]
    exact pbRunFrom_volInv evs pbInit h0

/-- Witness for `setVolume_clamp_spec`: the out-of-range input 3/2 is
clamped to 1 on the streamer, and on an unmuted manager the stored volume
and gain become the clamp of -1, namely 0. -/
theorem setVolume_clamp_spec_witness :
    ((1 : ℚ) ≤ 3 / 2 ∧ (AudioStreamer.setVolume (3 / 2) (AudioStreamer.init 24000)).gain = 1) ∧
    (pbInit.isMuted = false ∧ (setVolume (-1) pbInit).gain = max 0 (min 1 (-1))) := by
  constructor
  · constructor
    · norm_num
    · exact (setVolume_clamp_spec.1 (AudioStreamer.init 24000) (3 / 2)).2.2.2.1 (by norm_num)
  · exact ⟨rfl, (setVolume_clamp_spec.2.1 pbInit (-1)).2.1 rfl⟩
